import Mathlib

/-! # Slither.NES (`snake.c`): a shallow embedding and its verified properties

The game state of `snake.c` is embedded as the record `Game`; every C function
that touches it becomes a Lean function on `Game`.

* Bytes (`byte`, `char`) and the 16-bit `word` score are natural numbers with an
  explicit `% 256` / `% 65536` wherever the C code can wrap.
* `Player.length` is a C `int`; it is an `Int` here.  An access `body[i]` with
  `i` outside `0 .. 44`, or `DIR_X[dir]` with `dir > 3`, is undefined behaviour
  in C: the embedding returns `none` there.
* Name-table memory is `vram : Nat → Nat`, from PPU address to byte.  `getchar`
  waits for the NMI (which commits the queued `vrambuf` writes) before it reads,
  so a queued write is visible to every later read: `cputcxy` writes at once.
* The collaborators that are not part of `snake.c` (the `NTADR_A` address macro
  and the `PAD_*` masks of `neslib.h`, the random source `rand8`, the controller
  `pad_poll`) are the fields of `Env`.
* Loops without a bound in the source (`rand_place`, `play_round`, `play_game`)
  take a `fuel` argument and return `none` when it runs out.
-/

namespace Snake

/-! ## Constants -/

def COLS : Nat := 32
def ROWS : Nat := 27
def START_SPEED : Nat := 4
def MAX_SPEED : Nat := 2
def MAX_SCORE : Nat := 7

/-- Directions of `dir_t`: `D_RIGHT, D_DOWN, D_LEFT, D_UP` are 0, 1, 2, 3. -/
def D_RIGHT : Nat := 0
def D_DOWN : Nat := 1
def D_LEFT : Nat := 2
def D_UP : Nat := 3

/-- Table `DIR_X`, `{ 1, 0, -1, 0 }` stored in `char`s: `-1` is the byte 255. -/
def DIR_X : List Nat := [1, 0, 255, 0]

/-- Table `DIR_Y`, `{ 0, 1, 0, -1 }` stored in `char`s: `-1` is the byte 255. -/
def DIR_Y : List Nat := [0, 1, 0, 255]

/-- Table `BOX_CHARS`. -/
def BOX_CHARS : List Nat := [0xa5, 0xa3, 0xa0, 0xa2, 0xa4, 0xa1, 0xa6, 0xa7]

/-! ## External collaborators -/

/-- What `snake.c` takes from outside: the `neslib.h` macro `NTADR_A` and pad
masks, the bytes `rand8` returns (the `n`-th call returns `rand_stream n`,
whatever `set_rand` did before), and the controller states `pad_poll` returns
(the `n`-th poll, when it is of controller `c`, returns `pad_stream n c`). -/
structure Env where
  NTADR_A : Nat → Nat → Nat
  PAD_A : Nat
  PAD_B : Nat
  PAD_LEFT : Nat
  PAD_RIGHT : Nat
  PAD_UP : Nat
  PAD_DOWN : Nat
  rand_stream : Nat → Nat
  pad_stream : Nat → Nat → Nat

/-! ## Game data -/

/-- Struct `BodyPart`. -/
structure BodyPart where
  x : Nat
  y : Nat
  active : Bool
  deriving DecidableEq, Repr

/-- Struct `Player`; `body` is the array `body[45]`. -/
structure Player where
  x : Nat
  y : Nat
  dir : Nat
  score : Nat
  head_attr : Nat
  tail_attr : Nat
  collided : Bool
  human : Bool
  num : Int
  body : List BodyPart
  length : Int
  deriving DecidableEq, Repr

/-- Struct `Powop`. -/
structure Powop where
  x : Nat
  y : Nat
  attr : Nat
  deriving DecidableEq, Repr

/-- The globals of `snake.c` (`players[0]`, `players[1]`, `pow`, `attract`,
`num_players`, `gameover`, `frames_per_move`, `seed`), the name-table memory,
and three observation fields no code reads: how many `rand8` and `pad_poll`
calls were made so far, and the arguments of the `declare_winner` calls made so
far, latest first. -/
structure Game where
  p0 : Player
  p1 : Player
  pow : Powop
  attract : Nat
  num_players : Nat
  gameover : Nat
  frames_per_move : Nat
  seed : Nat
  vram : Nat → Nat
  rand_calls : Nat
  pad_calls : Nat
  winner_calls : List Nat

/-- Element `players[i]`. -/
def Game.players (g : Game) (i : Nat) : Player :=
  match i with
  | 0 => g.p0
  | _ => g.p1

/-- Assignment to `players[i]`. -/
def Game.setPlayer (g : Game) (i : Nat) (p : Player) : Game :=
  match i with
  | 0 => { g with p0 := p }
  | _ => { g with p1 := p }

/-! ## Screen access -/

/-- Function `getchar`: the byte of name-table memory at `NTADR_A(x,y)`. -/
def getchar (E : Env) (g : Game) (x y : Nat) : Nat :=
  g.vram (E.NTADR_A x y)

/-- A write of one byte into name-table memory. -/
def poke (g : Game) (addr v : Nat) : Game :=
  { g with vram := fun a => if a = addr then v else g.vram a }

/-- Function `cputcxy`: put the character `ch` at `NTADR_A(x,y)`. -/
def cputcxy (E : Env) (x y ch : Nat) (g : Game) : Game :=
  poke g (E.NTADR_A x y) ch

/-- Function `cputsxy`: put the characters of `str` at `NTADR_A(x,y)` and the
addresses after it. -/
def cputsxy (E : Env) (x y : Nat) (str : List Nat) (g : Game) : Game :=
  (List.range str.length).foldl
    (fun g j => poke g (E.NTADR_A x y + j) (str.getD j 0)) g

/-- Function `clrscr`: `vram_fill(0, 32*28)` from address `0x2000`. -/
def clrscr (g : Game) : Game :=
  { g with vram := fun a => if 0x2000 ≤ a ∧ a < 0x2000 + 32 * 28 then 0 else g.vram a }

/-- Function `draw_player`. -/
def draw_player (E : Env) (i : Nat) (g : Game) : Game :=
  cputcxy E (g.players i).x (g.players i).y (g.players i).head_attr g

/-- Function `draw_powop`. -/
def draw_powop (E : Env) (g : Game) : Game :=
  poke g (E.NTADR_A g.pow.x g.pow.y) g.pow.attr

/-! ## Random source and pickup placement -/

/-- Function `rand8` of the library: the next byte of the random source. -/
def rand8 (E : Env) (g : Game) : Nat × Game :=
  (E.rand_stream g.rand_calls % 256, { g with rand_calls := g.rand_calls + 1 })

/-- The two assignments `pow.x = (rand8() % (29 - 2 + 1)) + 2;`
`pow.y = (rand8() % (23 - 3 + 1)) + 3;` of `rand_place`. -/
def rand_pos (E : Env) (g : Game) : Game :=
  let (r1, g) := rand8 E g
  let g := { g with pow := { g.pow with x := (r1 % (29 - 2 + 1)) + 2 } }
  let (r2, g) := rand8 E g
  { g with pow := { g.pow with y := (r2 % (23 - 3 + 1)) + 3 } }

/-- The `while (getchar(pow.x, pow.y) != 0)` loop of `rand_place`. -/
def rand_place_loop (E : Env) : Nat → Game → Option Game
  | 0, _ => none
  | fuel + 1, g =>
    if getchar E g g.pow.x g.pow.y ≠ 0 then rand_place_loop E fuel (rand_pos E g)
    else some g

/-- Function `rand_place`. -/
def rand_place (E : Env) (fuel : Nat) (g : Game) : Option Game :=
  let (r, g) := rand8 E g
  let g := { g with seed := (g.seed + r) % 256 }
  rand_place_loop E fuel (rand_pos E g)

/-! ## Start of a match and of a round -/

/-- A `Player` after `memset(players, 0, sizeof(players))`. -/
def zero_player : Player :=
  { x := 0, y := 0, dir := 0, score := 0, head_attr := 0, tail_attr := 0,
    collided := false, human := false, num := 0,
    body := List.replicate 45 { x := 0, y := 0, active := false }, length := 0 }

/-- Function `init_game`. -/
def init_game (g : Game) : Game :=
  { g with
    p0 := { zero_player with head_attr := 0xae, tail_attr := 0x06, length := 2 }
    p1 := { zero_player with head_attr := 0xaf, tail_attr := 0x07, length := 2 }
    pow := { g.pow with attr := 0xad }
    frames_per_move := START_SPEED }

/-- The flag `body[i].active` (false outside the array). -/
def isActive (body : List BodyPart) (i : Nat) : Bool :=
  match body[i]? with
  | some b => b.active
  | none => false

/-- The assignment `body[i].active = v`. -/
def setActive : List BodyPart → Nat → Bool → List BodyPart
  | [], _, _ => []
  | b :: bs, 0, v => { b with active := v } :: bs
  | b :: bs, i + 1, v => b :: setActive bs i v

/-- The clearing loop of `reset_players`:
`for(i = 1; i < 45 && (players[0].body[i].active || players[1].body[i].active); i++)`
clears both flags at `i`.  The first argument bounds the number of rounds. -/
def reset_loop : Nat → Nat → List BodyPart → List BodyPart → List BodyPart × List BodyPart
  | 0, _, b0, b1 => (b0, b1)
  | n + 1, i, b0, b1 =>
    if i < 45 ∧ (isActive b0 i || isActive b1 i) then
      reset_loop n (i + 1) (setActive b0 i false) (setActive b1 i false)
    else (b0, b1)

/-- Function `reset_players`. -/
def reset_players (g : Game) : Game :=
  let b0 := setActive g.p0.body 0 true
  let b1 := setActive g.p1.body 0 true
  let bs := reset_loop 45 1 b0 b1
  { g with
    p0 := { g.p0 with x := 5, y := 5, dir := D_RIGHT, collided := false, length := 2,
                      body := bs.1 }
    p1 := { g.p1 with x := COLS - 6, y := ROWS - 6, dir := D_LEFT, collided := false,
                      length := 2, body := bs.2 }
    frames_per_move := (START_SPEED + 2 * g.num_players * g.num_players) % 256 }

/-! ## Movement -/

/-- The `for` loop of `update_body` for `players[k]`, entered at index `i` with
the carried position `(tx, ty)`.  The first argument bounds the number of
rounds; 46 are enough, since `body[45]` is out of bounds. -/
def update_body_loop (E : Env) : Nat → Nat → Nat → Nat → Nat → Game → Option Game
  | 0, _, _, _, _, _ => none
  | n + 1, k, i, tx, ty, g =>
    if (i : Int) < (g.players k).length then
      if i < 45 then
        match (g.players k).body[i]? with
        | none => none
        | some b =>
          let g1 := g.setPlayer k
            { g.players k with body := (g.players k).body.set i { b with x := tx, y := ty } }
          -- `body[i]` now holds `(tx, ty)`: that is the cell `cputcxy` clears
          if b.active then update_body_loop E n k (i + 1) b.x b.y g1
          else some (cputcxy E tx ty 0 g1)
      else none
    else some g

/-- Function `update_body` for `players[k]`. -/
def update_body (E : Env) (k : Nat) (g : Game) : Option Game :=
  update_body_loop E 46 k 0 (g.players k).x (g.players k).y g

/-- The two lines `p->x += DIR_X[p->dir]; p->y += DIR_Y[p->dir];` (bytes). -/
def step_head (k : Nat) (g : Game) : Option Game :=
  match DIR_X[(g.players k).dir]?, DIR_Y[(g.players k).dir]? with
  | some dx, some dy =>
    some (g.setPlayer k { g.players k with x := ((g.players k).x + dx) % 256,
                                           y := ((g.players k).y + dy) % 256 })
  | _, _ => none

/-- The pickup branch of `move_player` (lines 233-237). -/
def eat_pickup (E : Env) (fuel : Nat) (k : Nat) (g : Game) : Option Game :=
  match rand_place E fuel g with
  | none => none
  | some g1 =>
    let g2 := draw_powop E g1
    let p := g2.players k
    if 0 ≤ p.length - 1 ∧ p.length - 1 < 45 then
      let g3 := g2.setPlayer k
        { p with body := setActive p.body (p.length - 1).toNat true, length := p.length + 1 }
      if (g3.frames_per_move > MAX_SPEED ∧ p.human = true) ∨
         (g3.frames_per_move > MAX_SPEED ∧ g3.attract ≠ 0) then
        some { g3 with frames_per_move := g3.frames_per_move - 1 }
      else some g3
    else none

/-- The `if (getchar(p->x, p->y) != 0)` statement of `move_player`. -/
def check_head (E : Env) (fuel : Nat) (k : Nat) (g : Game) : Option Game :=
  if getchar E g (g.players k).x (g.players k).y ≠ 0 then
    if getchar E g (g.players k).x (g.players k).y = g.pow.attr then eat_pickup E fuel k g
    else some (g.setPlayer k { g.players k with collided := true })
  else some g

/-- The first four statements of `move_player` (lines 225-228): the state in
which `move_player` reads the cell of the new head. -/
def before_check (E : Env) (k : Nat) (g : Game) : Option Game :=
  match update_body E k (draw_player E k g) with
  | none => none
  | some g1 => step_head k g1

/-- The byte `getchar(p->x, p->y)` that `move_player` reads at the new head
position (line 229). -/
def head_cell (E : Env) (k : Nat) (g : Game) : Option Nat :=
  match before_check E k g with
  | none => none
  | some g2 => some (getchar E g2 (g2.players k).x (g2.players k).y)

/-- Function `move_player` for `players[k]`. -/
def move_player (E : Env) (fuel : Nat) (k : Nat) (g : Game) : Option Game :=
  match before_check E k g with
  | none => none
  | some g2 =>
    match check_head E fuel k g2 with
    | none => none
    | some g3 => some (draw_player E k g3)

/-! ## Controllers -/

/-- Function `pad_poll` of the library: the next state of controller `c`. -/
def pad_poll (E : Env) (c : Nat) (g : Game) : Nat × Game :=
  (E.pad_stream g.pad_calls c % 256, { g with pad_calls := g.pad_calls + 1 })

/-- The direction `human_control` computes from `pad` (lines 246, 267-270). -/
def pad_dir (E : Env) (pad : Nat) : Nat :=
  let dir := 0xff
  let dir := if pad &&& E.PAD_LEFT ≠ 0 then D_LEFT else dir
  let dir := if pad &&& E.PAD_RIGHT ≠ 0 then D_RIGHT else dir
  let dir := if pad &&& E.PAD_UP ≠ 0 then D_UP else dir
  if pad &&& E.PAD_DOWN ≠ 0 then D_DOWN else dir

/-- The attract-mode test of `human_control` (lines 255-264): button A starts
a one-player game, button B a two-player game. -/
def start_buttons (E : Env) (pad : Nat) (g : Game) : Game :=
  if g.attract ≠ 0 ∧ pad &&& E.PAD_A ≠ 0 then { g with gameover := 1, num_players := 1 }
  else if g.attract ≠ 0 ∧ pad &&& E.PAD_B ≠ 0 then { g with gameover := 1, num_players := 2 }
  else g

/-- The steering part of `human_control` (lines 266-274). -/
def steer (E : Env) (k : Nat) (pad : Nat) (g : Game) : Game :=
  if (g.players k).human = false then g
  else if pad_dir E pad < 0x80 ∧ pad_dir E pad ≠ (g.players k).dir ^^^ 2 then
    g.setPlayer k { g.players k with dir := pad_dir E pad }
  else g

/-- Function `human_control` for `players[k]`. -/
def human_control (E : Env) (k : Nat) (g : Game) : Game :=
  let r := if (g.players k).num = 2 then pad_poll E 1 g else pad_poll E 0 g
  steer E k r.1 (start_buttons E r.1 r.2)

/-- Function `ai_try_dir` for `players[k]`; `dir` is the `int`-sized `dir_t`
argument, and `dir &= 3` on a two's complement `int` is `dir % 4`. -/
def ai_try_dir (E : Env) (k : Nat) (dir : Int) (shift : Nat) (g : Game) : Bool × Game :=
  let d := (dir % 4).toNat
  let x := ((g.players k).x + (DIR_X.getD d 0 <<< shift)) % 256
  let y := ((g.players k).y + (DIR_Y.getD d 0 <<< shift)) % 256
  if getchar E g x y = g.pow.attr then
    (true, g.setPlayer k { g.players k with dir := d })
  else if x < COLS ∧ y < ROWS ∧ getchar E g x y = 0 then
    (true, g.setPlayer k { g.players k with dir := d })
  else (false, g)

/-- The primary candidate direction of `ai_control` (lines 299-325), with the
state after the `rand8` call it may make. -/
def ai_candidate (E : Env) (k : Nat) (g : Game) : Nat × Game :=
  let p := g.players k
  if p.x > g.pow.x then
    if p.y ≠ g.pow.y then
      let (r, g1) := rand8 E g
      if (r % (1 - 0 + 1)) + 0 > 0 then
        (if p.y < g.pow.y then D_DOWN else D_UP, g1)
      else (D_LEFT, g1)
    else (D_LEFT, g)
  else if p.x < g.pow.x then
    if p.y ≠ g.pow.y then
      let (r, g1) := rand8 E g
      if (r % (10 - 0 + 1)) + 0 > 6 then
        (if p.y < g.pow.y then D_DOWN else D_UP, g1)
      else (D_RIGHT, g1)
    else (D_RIGHT, g)
  else
    (if p.y < g.pow.y then D_DOWN else D_UP, g)

/-- Function `ai_control` for `players[k]`. -/
def ai_control (E : Env) (k : Nat) (g : Game) : Game :=
  if (g.players k).human = true then g
  else
    let (dir, g1) := ai_candidate E k g
    let (ok, g2) := ai_try_dir E k dir 0 g1
    if ok = false then
      (ai_try_dir E k ((dir : Int) - 1) 0 (ai_try_dir E k ((dir : Int) + 1) 0 g2).2).2
    else { g2 with seed := (g2.seed + 1) % 256 }

/-- The polling loop of `make_move`: `n` rounds of
`human_control(&players[0]); human_control(&players[1]);`. -/
def poll_frames (E : Env) : Nat → Game → Game
  | 0, g => g
  | n + 1, g => poll_frames E n (human_control E 1 (human_control E 0 g))

/-- The last two lines of `make_move`: `move_player(&players[1]);`
`move_player(&players[0]);`. -/
def move_players (E : Env) (fuel : Nat) (g : Game) : Option Game :=
  match move_player E fuel 1 g with
  | none => none
  | some g1 => move_player E fuel 0 g1

/-- Function `make_move`. -/
def make_move (E : Env) (fuel : Nat) (g : Game) : Option Game :=
  let g := poll_frames E g.frames_per_move g
  let g := ai_control E 0 g
  let g := ai_control E 1 g
  move_players E fuel g

/-! ## The playfield -/

/-- The loop `while (++x < x2)` of `draw_box`, with `x` a byte.  The first
argument bounds the number of rounds (256 are enough). -/
def draw_box_cols (E : Env) (y y2 x2 : Nat) (chars : List Nat) : Nat → Nat → Game → Game
  | 0, _, g => g
  | n + 1, x, g =>
    if (x + 1) % 256 < x2 then
      draw_box_cols E y y2 x2 chars n ((x + 1) % 256)
        (cputcxy E ((x + 1) % 256) y2 (chars.getD 4 0)
          (cputcxy E ((x + 1) % 256) y (chars.getD 5 0) g))
    else g

/-- The loop `while (++y < y2)` of `draw_box`, with `y` a byte.  The first
argument bounds the number of rounds (256 are enough). -/
def draw_box_rows (E : Env) (x1 x2 y2 : Nat) (chars : List Nat) : Nat → Nat → Game → Game
  | 0, _, g => g
  | n + 1, y, g =>
    if (y + 1) % 256 < y2 then
      draw_box_rows E x1 x2 y2 chars n ((y + 1) % 256)
        (cputcxy E x2 ((y + 1) % 256) (chars.getD 7 0)
          (cputcxy E x1 ((y + 1) % 256) (chars.getD 6 0) g))
    else g

/-- Function `draw_box`. -/
def draw_box (E : Env) (x y x2 y2 : Nat) (chars : List Nat) (g : Game) : Game :=
  let g := cputcxy E x y (chars.getD 2 0) g
  let g := cputcxy E x2 y (chars.getD 3 0) g
  let g := cputcxy E x y2 (chars.getD 0 0) g
  let g := cputcxy E x2 y2 (chars.getD 1 0) g
  let g := draw_box_cols E y y2 x2 chars 256 x g
  draw_box_rows E x x2 y2 chars 256 y g

/-- The character codes of a C string literal. -/
def cstr (s : String) : List Nat :=
  s.toList.map Char.toNat

/-- Function `draw_playfield`. -/
def draw_playfield (E : Env) (g : Game) : Game :=
  let g := draw_box E 1 3 (COLS - 2) (ROWS - 1) BOX_CHARS g
  if g.attract ≠ 0 then
    let g := cputsxy E 8 2 (cstr "___Slither.NES___") g
    cputsxy E 3 (ROWS - 1) (cstr "Press: A for 1P | B for 2P") g
  else
    let g := cputcxy E 9 2 ((g.p0.score + 48) % 256) g
    let g := cputcxy E 28 2 ((g.p1.score + 48) % 256) g
    let g := cputsxy E 1 1 (cstr "PLYR1:") g
    cputsxy E 20 1 (cstr "PLYR2:") g

/-- Macro `AE`. -/
def AE (tl tr bl br : Nat) : Nat :=
  (tl <<< 0) ||| (tr <<< 2) ||| (bl <<< 4) ||| (br <<< 6)

/-- Table `Attrib_Table`. -/
def Attrib_Table : List Nat :=
  [AE 3 3 1 1, AE 3 3 1 1, AE 3 3 1 1, AE 3 3 1 1, AE 2 2 1 1, AE 2 2 1 1, AE 2 2 1 1, AE 2 2 1 1,
   AE 1 0 1 0, AE 0 0 0 0, AE 0 0 0 0, AE 0 0 0 0, AE 0 0 0 0, AE 0 0 0 0, AE 0 0 0 0, AE 0 1 0 1,
   AE 1 0 1 0, AE 0 0 0 0, AE 0 0 0 0, AE 0 0 0 0, AE 0 0 0 0, AE 0 0 0 0, AE 0 0 0 0, AE 0 1 0 1,
   AE 1 0 1 0, AE 0 0 0 0, AE 0 0 0 0, AE 0 0 0 0, AE 0 0 0 0, AE 0 0 0 0, AE 0 0 0 0, AE 0 1 0 1,
   AE 1 0 1 0, AE 0 0 0 0, AE 0 0 0 0, AE 0 0 0 0, AE 0 0 0 0, AE 0 0 0 0, AE 0 0 0 0, AE 0 1 0 1,
   AE 1 0 1 0, AE 0 0 0 0, AE 0 0 0 0, AE 0 0 0 0, AE 0 0 0 0, AE 0 0 0 0, AE 0 0 0 0, AE 0 1 0 1,
   AE 1 0 1 1, AE 0 0 1 1, AE 0 0 1 1, AE 0 0 1 1, AE 0 0 1 1, AE 0 0 1 1, AE 0 0 1 1, AE 0 1 1 1,
   AE 1 1 1 1, AE 1 1 1 1, AE 1 1 1 1, AE 1 1 1 1, AE 1 1 1 1, AE 1 1 1 1, AE 1 1 1 1, AE 1 1 1 1]

/-- Function `setup_attrib_table`: `Attrib_Table` goes to address `0x23c0`. -/
def setup_attrib_table (g : Game) : Game :=
  (List.range 0x40).foldl (fun g j => poke g (0x23c0 + j) (Attrib_Table.getD j 0)) g

/-! ## Round end: scoring and the winner check -/

/-- Function `declare_winner`: the winner screen, then `gameover = 1` and
`attract = 1`. -/
def declare_winner (E : Env) (winner : Nat) (g : Game) : Game :=
  let g := clrscr g
  let g := cputsxy E 12 10 [87, 73, 78, 78, 69, 82, 58] g       -- "WINNER:"
  let g := cputsxy E 12 13 [80, 76, 65, 89, 69, 82, 32] g       -- "PLAYER "
  let g := cputcxy E (12 + 7) 13 ((49 + winner) % 256) g        -- '1'+winner
  { g with gameover := 1, attract := 1, winner_calls := winner :: g.winner_calls }

/-- The scoring step of `play_round` (lines 441-442):
`if (players[0].collided) players[1].score++;`
`if (players[1].collided) players[0].score++;` on the 16-bit `word` score. -/
def score_step (g : Game) : Game :=
  let g := if g.p0.collided then { g with p1 := { g.p1 with score := (g.p1.score + 1) % 65536 } } else g
  if g.p1.collided then { g with p0 := { g.p0 with score := (g.p0.score + 1) % 65536 } } else g

/-- The winner check of `play_round` (lines 446-451). -/
def winner_check (E : Env) (g : Game) : Game :=
  if g.p0.score ≠ g.p1.score then
    if g.p0.score ≥ MAX_SCORE then declare_winner E 0 g
    else if g.p1.score ≥ MAX_SCORE then declare_winner E 1 g
    else g
  else g

/-- One round of the loop of `flash_colliders` (the sound and the two
`vrambuf_flush` calls leave the game state alone). -/
def flash_step (E : Env) (i : Nat) (g : Game) : Game :=
  let g := if g.p0.collided = true ∧ i % 4 = 0 then
      { g with p0 := { g.p0 with head_attr := g.p0.head_attr ^^^ 0x30 } } else g
  let g := if g.p1.collided = true ∧ i % 4 = 0 then
      { g with p1 := { g.p1 with head_attr := g.p1.head_attr ^^^ 0x30 } } else g
  draw_player E 1 (draw_player E 0 g)

/-- Function `flash_colliders`. -/
def flash_colliders (E : Env) (g : Game) : Game :=
  (List.range 56).foldl (fun g i => flash_step E i g) g

/-- What `play_round` does once its loop is left by `break` (lines 439-451). -/
def round_end (E : Env) (g : Game) : Game :=
  winner_check E (score_step (flash_colliders E g))

/-- The first two statements of the body of the loop of `play_round`:
`if (attract) seed++; make_move();`. -/
def round_step (E : Env) (fuel : Nat) (g : Game) : Option Game :=
  make_move E fuel (if g.attract ≠ 0 then { g with seed := (g.seed + 1) % 256 } else g)

/-- The `while (1)` loop of `play_round`.  The result is the state in which
the loop is left, with `true` when it is left by `return` (`gameover` set) and
`false` when it is left by `break` (a collision).  The first argument bounds
the number of rounds. -/
def play_round_loop (E : Env) (fuel : Nat) : Nat → Game → Option (Bool × Game)
  | 0, _ => none
  | n + 1, g =>
    match round_step E fuel g with
    | none => none
    | some g1 =>
      if g1.gameover ≠ 0 then some (true, g1)
      else if g1.p0.collided = true ∨ g1.p1.collided = true then some (false, g1)
      else play_round_loop E fuel n g1

/-- What `play_round` does before its loop (lines 424-431).  The palette
written by `setup_palette` is not part of the name-table memory and is not
modelled. -/
def round_start (E : Env) (fuel : Nat) (g : Game) : Option Game :=
  let g := setup_attrib_table g
  let g := clrscr g
  let g := draw_playfield E g
  let g := reset_players g
  match rand_place E fuel g with
  | none => none
  | some g1 => some (draw_powop E g1)

/-- Function `play_round`. -/
def play_round (E : Env) (fuel : Nat) (g : Game) : Option Game :=
  match round_start E fuel g with
  | none => none
  | some g1 =>
    match play_round_loop E fuel fuel g1 with
    | none => none
    | some (true, g2) => some g2
    | some (false, g2) => some (round_end E g2)

/-- The `while (!gameover)` loop of `play_game`.  The first argument bounds the
number of rounds. -/
def play_game_loop (E : Env) (fuel : Nat) : Nat → Game → Option Game
  | 0, _ => none
  | n + 1, g =>
    if g.gameover = 0 then
      match play_round E fuel g with
      | none => none
      | some g1 => play_game_loop E fuel n g1
    else some g

/-- What `play_game` does before its loop (lines 455-466). -/
def game_start (g : Game) : Game :=
  let g := { g with gameover := 0 }
  let g := init_game g
  if g.attract = 0 then
    let g := { g with p0 := { g.p0 with human := true, num := 1 } }
    if g.num_players = 2 then { g with p1 := { g.p1 with human := true, num := 2 } } else g
  else g

/-- Function `play_game`. -/
def play_game (E : Env) (fuel : Nat) (g : Game) : Option Game :=
  play_game_loop E fuel fuel (game_start g)

/-- The state in which `main` enters its loop: the globals are zero, the
name-table memory is whatever it is at power-on. -/
def boot (vram : Nat → Nat) : Game :=
  { p0 := zero_player
    p1 := zero_player
    pow := { x := 0, y := 0, attr := 0 }
    attract := 0, num_players := 0, gameover := 0, frames_per_move := 0, seed := 0
    vram := vram, rand_calls := 0, pad_calls := 0, winner_calls := [] }

/-- The first half of the body of the loop of `main`:
`attract = 1; play_game();`. -/
def main_attract (E : Env) (fuel : Nat) (g : Game) : Option Game :=
  play_game E fuel { g with attract := 1 }

/-- The second half of the body of the loop of `main`:
`attract = 0; play_game();`. -/
def main_play (E : Env) (fuel : Nat) (g : Game) : Option Game :=
  play_game E fuel { g with attract := 0 }

/-! ## A concrete machine -/

/-- Macro `NTADR_A` as `neslib.h` defines it: `(0x2000|(((y)<<5)|(x)))`. -/
def NTADR_A (x y : Nat) : Nat :=
  0x2000 ||| ((y <<< 5) ||| x)

/-- A concrete environment: the `neslib.h` address macro and pad masks, random
bytes read from the list `rs` over and over, and no button ever pressed. -/
def nes (rs : List Nat) : Env :=
  { NTADR_A := NTADR_A
    PAD_A := 0x01, PAD_B := 0x02, PAD_UP := 0x10, PAD_DOWN := 0x20
    PAD_LEFT := 0x40, PAD_RIGHT := 0x80
    rand_stream := fun n => rs.getD (n % rs.length) 1
    pad_stream := fun _ _ => 0 }

/-- A state at the end of a round: the match was initialised, the two players
have the given `collided` flags and scores. -/
def ended (c0 c1 : Bool) (s0 s1 : Nat) : Game :=
  let g := init_game (boot (fun _ => 0))
  { g with p0 := { g.p0 with collided := c0, score := s0 }
           p1 := { g.p1 with collided := c1, score := s1 } }

/-- The state `g'` differs from `g` in name-table memory only. -/
def OnlyVram (g g' : Game) : Prop :=
  g' = { g with vram := g'.vram }

/-- The fields of a player that `update_body` and the head step leave alone. -/
structure SameCore (p p' : Player) : Prop where
  dir : p'.dir = p.dir
  score : p'.score = p.score
  head_attr : p'.head_attr = p.head_attr
  collided : p'.collided = p.collided
  human : p'.human = p.human
  num : p'.num = p.num
  length : p'.length = p.length

/-- The state `g'` has the globals of `g`, random source and screen apart, and
players that differ from those of `g` in position and body only. -/
structure Kept (g g' : Game) : Prop where
  pow : g'.pow = g.pow
  attract : g'.attract = g.attract
  num_players : g'.num_players = g.num_players
  gameover : g'.gameover = g.gameover
  frames_per_move : g'.frames_per_move = g.frames_per_move
  p0 : SameCore g.p0 g'.p0
  p1 : SameCore g.p1 g'.p1

/-- What `rand_place` leaves alone: the players, the mode and pacing globals,
the pickup marker and the screen. -/
structure PlaceKept (g g' : Game) : Prop where
  p0 : g'.p0 = g.p0
  p1 : g'.p1 = g.p1
  attract : g'.attract = g.attract
  num_players : g'.num_players = g.num_players
  gameover : g'.gameover = g.gameover
  frames_per_move : g'.frames_per_move = g.frames_per_move
  attr : g'.pow.attr = g.pow.attr
  vram : g'.vram = g.vram

/-- Indices `j` and `k` name the same element of `players` (`players[0]` for
0, `players[1]` otherwise). -/
def SameSlot (j k : Nat) : Prop :=
  j = 0 ↔ k = 0

/-- A playfield for the examples: in attract mode a match was initialised, the
screen cleared, the playfield drawn and the players reset; the pickup marker is
put at `(6,5)`.  Player 1 stands at `(x0, 5)` and looks right: with `x0 = 5`
its next cell holds the pickup, with `x0 = 6` it is empty, with `x0 = 29` it is
the border. -/
def field (x0 : Nat) : Game :=
  let g := init_game { boot (fun _ => 0) with attract := 1 }
  let g := reset_players (draw_playfield (nes []) (clrscr g))
  let g := draw_powop (nes []) { g with pow := { g.pow with x := 6, y := 5 } }
  { g with p0 := { g.p0 with x := x0 } }

/-- The positions the loop of `rand_place` tests, in order, when it is entered
in state `g`: the current pickup position, then the positions drawn from the
random source. -/
def tried_pos (E : Env) (g : Game) : Nat → Nat × Nat
  | 0 => (g.pow.x, g.pow.y)
  | i + 1 => ((E.rand_stream (g.rand_calls + 2 * i) % 256) % (29 - 2 + 1) + 2,
              (E.rand_stream (g.rand_calls + 2 * i + 1) % 256) % (23 - 3 + 1) + 3)

/-- The position `p->x + DIR_X[p->dir], p->y + DIR_Y[p->dir]` (in bytes) of the
next head of a player. -/
def next_head (p : Player) : Option (Nat × Nat) :=
  match DIR_X[p.dir]?, DIR_Y[p.dir]? with
  | some dx, some dy => some ((p.x + dx) % 256, (p.y + dy) % 256)
  | _, _ => none

/-- The cell `(x, y)` lies on the `COLS` by `ROWS` grid. -/
def InGrid (x y : Nat) : Prop :=
  x < COLS ∧ y < ROWS

instance (x y : Nat) : Decidable (InGrid x y) := by
  unfold InGrid; infer_instance

/-- Different cells of the grid have different name-table addresses. -/
def GridInjective (E : Env) : Prop :=
  ∀ x y x' y', InGrid x y → InGrid x' y' → E.NTADR_A x y = E.NTADR_A x' y' → x = x' ∧ y = y'

/-- The player's record is within the bounds of its declaration: `body` has its
45 entries, `length` does not exceed them, `dir` is a direction. -/
def WellFormed (p : Player) : Prop :=
  p.body.length = 45 ∧ p.length ≤ 45 ∧ p.dir < 4

instance (p : Player) : Decidable (WellFormed p) := by
  unfold WellFormed; infer_instance

/-- A state for the move-order example: on the drawn playfield player 1
stands at `(5,5)` looking right with one trail cell drawn behind it at `(4,5)`,
player 2 stands at `(7,5)` looking left; both are about to enter `(6,5)`. -/
def facing : Game :=
  let g := reset_players (draw_playfield (nes []) (clrscr (init_game (boot (fun _ => 0)))))
  let g := cputcxy (nes []) 4 5 0xae g
  { g with p0 := { g.p0 with body := g.p0.body.set 0 { x := 4, y := 5, active := true } }
           p1 := { g.p1 with x := 7, y := 5 } }

/-- The body of the loop of `play_round` run `n` times, without its two exit
tests. -/
def round_steps (E : Env) (fuel : Nat) : Nat → Game → Option Game
  | 0, g => some g
  | n + 1, g =>
    match round_step E fuel g with
    | none => none
    | some g1 => round_steps E fuel n g1

/-- Random bytes for a demo round in which player 1 eats 44 pickups: each
`rand_place` puts the next pickup on the cell in front of player 1, along the
rows 5 to 9 of the playfield. -/
def feast : List Nat :=
  [0, 4, 2, 0, 0, 5, 2, 0, 0, 6, 2, 0, 0, 7, 2, 0, 0, 8, 2, 0, 0, 9, 2, 0, 0, 10, 2, 0,
   0, 10, 3, 0, 0, 9, 3, 0, 0, 8, 3, 0, 0, 7, 3, 0, 0, 6, 3, 0, 0, 5, 3, 0, 0, 4, 3, 0,
   0, 3, 3, 0, 0, 2, 3, 0, 0, 1, 3, 0, 0, 0, 3, 0, 0, 0, 4, 0, 0, 1, 4, 0, 0, 2, 4, 0,
   0, 3, 4, 0, 4, 4, 0, 0, 5, 4, 0, 0, 6, 4, 0, 0, 7, 4, 0, 0, 8, 4, 0, 0, 9, 4, 0, 0,
   10, 4, 0, 0, 10, 5, 0, 9, 5, 0, 0, 8, 5, 0, 0, 7, 5, 0, 0, 6, 5, 0, 0, 5, 5, 0, 0, 4,
   5, 0, 0, 3, 5, 0, 0, 2, 5, 0, 0, 1, 5, 0, 0, 0, 5, 0, 0, 0, 6, 0, 1, 6, 0, 0, 2, 6,
   0, 0, 3, 6, 0, 0, 18, 7]

/-- Random bytes for a demo round that player 2 wins after six moves: player 1
eats four pickups on a small loop and then runs into the top border.  Read over
and over they give the same round again and again. -/
def short_round : List Nat :=
  [0, 3, 1, 0, 0, 4, 1, 0, 0, 4, 2, 0, 0, 5, 2, 0, 0, 0, 1, 1, 0, 0]

/-- A state for the tail example: on the drawn playfield player 1, of length 4,
has gone from `(5,4)` over `(6,4)` and `(6,5)` to `(5,5)` and now looks up, at
its own tail cell `(5,4)`; its head and three trail cells are drawn. -/
def chase : Game :=
  let g := reset_players (draw_playfield (nes []) (clrscr (init_game (boot (fun _ => 0)))))
  let g := cputcxy (nes []) 5 5 0xae (cputcxy (nes []) 6 5 0xae
    (cputcxy (nes []) 6 4 0xae (cputcxy (nes []) 5 4 0xae g)))
  let body := setActive (setActive g.p0.body 1 true) 2 true
  let body := body.set 0 { x := 6, y := 5, active := true }
  let body := body.set 1 { x := 6, y := 4, active := true }
  let body := body.set 2 { x := 5, y := 4, active := true }
  { g with p0 := { g.p0 with dir := D_UP, length := 4, body := body } }

/-- The border of the playfield, the box `draw_box(1,3,COLS-2,ROWS-1,...)`
draws, is non-empty on the screen. -/
def BorderDrawn (E : Env) (g : Game) : Prop :=
  ∀ x y, 1 ≤ x → x ≤ 30 → 3 ≤ y → y ≤ 26 → (x = 1 ∨ x = 30 ∨ y = 3 ∨ y = 26) →
    getchar E g x y ≠ 0

/-- The pickup position is one `rand_place` can draw: `2 <= x <= 29` and
`3 <= y <= 23`. -/
def Drawn (p : Powop) : Prop :=
  2 ≤ p.x ∧ p.x ≤ 29 ∧ 3 ≤ p.y ∧ p.y ≤ 23

/-- The first round of the demo from power-on, before its first movement step,
with random bytes that make `rand_place` draw the cell `(5,5)`: the start cell
of player 1, empty because `reset_players` does not draw the players. -/
def under_head : Option Game :=
  round_start (nes [0, 3, 2]) 1 (game_start { boot (fun _ => 0) with attract := 1 })

/-- The pickup position of a state and the byte on the screen there. -/
def pickup_cell (E : Env) (g : Game) : Nat × Nat × Nat :=
  (g.pow.x, g.pow.y, getchar E g g.pow.x g.pow.y)

/-- Both scores of `g'` are those of `g`. -/
def ScoresKept (g g' : Game) : Prop :=
  g'.p0.score = g.p0.score ∧ g'.p1.score = g.p1.score

/-- The position `update_body` shifts into segment `K`: the head position for
segment 0, the position of segment `K - 1` otherwise. -/
def shifted_into (p : Player) (K : Nat) : Nat × Nat :=
  match K with
  | 0 => (p.x, p.y)
  | j + 1 =>
    match p.body[j]? with
    | some c => (c.x, c.y)
    | none => (0, 0)

/-- The state `chase` with the first inactive segment of player 1, `body[3]`,
holding the stale position `(1,3)`, a cell of the border. -/
def stale_tail : Game :=
  { chase with p0 := { chase.p0 with
      body := chase.p0.body.set 3 { x := 1, y := 3, active := false } } }

/-- The cell `ai_try_dir` looks at for direction `d` and the given `shift`:
`p->x + (DIR_X[d] << shift), p->y + (DIR_Y[d] << shift)`, in bytes. -/
def ahead (p : Player) (d : Nat) (shift : Nat) : Nat × Nat :=
  ((p.x + (DIR_X.getD d 0 <<< shift)) % 256, (p.y + (DIR_Y.getD d 0 <<< shift)) % 256)

/-- The test of `ai_try_dir` for `players[k]` and direction `d` (shift 0)
succeeds: the cell one step ahead holds the pickup marker, or lies on the grid
and is empty. -/
def Unobstructed (E : Env) (g : Game) (k : Nat) (d : Nat) : Prop :=
  getchar E g (ahead (g.players k) d 0).1 (ahead (g.players k) d 0).2 = g.pow.attr ∨
  ((ahead (g.players k) d 0).1 < COLS ∧ (ahead (g.players k) d 0).2 < ROWS ∧
    getchar E g (ahead (g.players k) d 0).1 (ahead (g.players k) d 0).2 = 0)

instance (E : Env) (g : Game) (k d : Nat) : Decidable (Unobstructed E g k d) := by
  unfold Unobstructed; infer_instance

/-- The Manhattan distance between the cells `(x, y)` and `(px, py)`. -/
def manhattan (x y px py : Nat) : Nat :=
  (x - px) + (px - x) + ((y - py) + (py - y))

/-- A state for the fallback example: on the drawn playfield the computer
player 1 stands at `(5,5)`, the pickup lies to its right at `(10,5)`, and the
cell `(6,5)` to its right is occupied; the cells above and below are empty. -/
def blocked : Game :=
  let g := reset_players (draw_playfield (nes []) (clrscr (init_game (boot (fun _ => 0)))))
  let g := draw_powop (nes []) { g with pow := { g.pow with x := 10, y := 5 } }
  cputcxy (nes []) 6 5 0xaf g

/-- A state for the out-of-grid example: player 1 stands at `(5,26)`, on the
last row of the grid, and the screen holds the byte `0xad` of the pickup marker
at `(5,27)`, below the grid. -/
def off_grid : Game :=
  let g := reset_players (draw_playfield (nes []) (clrscr (init_game (boot (fun _ => 0)))))
  let g := cputcxy (nes []) 5 27 0xad g
  { g with p0 := { g.p0 with y := 26 } }

/-- The active-prefix property of a player: its 45 segments are there, its
length lies between 2 and 45, and the active segments are exactly those at the
indices `0 .. length-2`. -/
def ActivePrefix (p : Player) : Prop :=
  p.body.length = 45 ∧ 2 ≤ p.length ∧ p.length ≤ 45 ∧
  ∀ i : Nat, isActive p.body i = true ↔ (i : Int) + 2 ≤ p.length

/-- The active-prefix property without segment 0: among the indices from 1 on
the active segments are exactly those up to `length-2`. -/
def TailPrefix (p : Player) : Prop :=
  p.body.length = 45 ∧ 2 ≤ p.length ∧ p.length ≤ 45 ∧
  ∀ i : Nat, 1 ≤ i → (isActive p.body i = true ↔ (i : Int) + 2 ≤ p.length)

/-- Both players have the same segments and lengths in the two states. -/
def SameTrail (g g' : Game) : Prop :=
  g'.p0.body = g.p0.body ∧ g'.p0.length = g.p0.length ∧
  g'.p1.body = g.p1.body ∧ g'.p1.length = g.p1.length

/-- The states reached from `init_game` by calls of `reset_players` and of
`move_player` that keep both lengths at 45 or less, with any steps in between
that leave the segments and lengths of the players alone (drawing, the
controllers, the placement of the pickup).  The flag tells whether
`reset_players` has been called. -/
inductive Reached (E : Env) : Bool → Game → Prop
  | init (g : Game) : Reached E false (init_game g)
  | reset (b : Bool) (g : Game) : Reached E b g → Reached E true (reset_players g)
  | move (b : Bool) (fuel k : Nat) (g g' : Game) : Reached E b g → k < 2 →
      move_player E fuel k g = some g' → g'.p0.length ≤ 45 → g'.p1.length ≤ 45 →
      Reached E b g'
  | frame (b : Bool) (g g' : Game) : Reached E b g → SameTrail g g' → Reached E b g'

/-- The state after the first move of player 1 on the playfield `field 5`: the
player has eaten the pickup at `(6,5)`. -/
def first_bite : Game :=
  (move_player (nes [0, 4, 2]) 5 0 (field 5)).getD (field 5)

/-- C1 (what the code does): when both players have their `collided` flag set,
the scoring step of `play_round` increments BOTH scores (as 16-bit words); the
tie rule "neither score increments" does not hold. -/
theorem score_step_both_collided (g : Game)
    (h0 : g.p0.collided = true) (h1 : g.p1.collided = true) :
    (score_step g).p0.score = (g.p0.score + 1) % 65536 ∧
    (score_step g).p1.score = (g.p1.score + 1) % 65536 := by
  simp [score_step, h0, h1]

/-- C1 at a concrete input: both flags set, scores 3 and 5 become 4 and 6. -/
theorem score_step_both_collided_witness :
    (score_step (ended true true 3 5)).p0.score = 4 ∧
    (score_step (ended true true 3 5)).p1.score = 6 :=
  score_step_both_collided (ended true true 3 5) rfl rfl

/-- C3: when exactly one player has its `collided` flag set, the scoring step
of `play_round` adds one to the other player's 16-bit score (exactly `+ 1`
whenever that score is below 65535, the largest `word`) and leaves the
colliding player's score unchanged. -/
theorem score_step_single_collision (g : Game) :
    (g.p0.collided = true → g.p1.collided = false →
      (score_step g).p1.score = (g.p1.score + 1) % 65536 ∧
      (g.p1.score < 65535 → (score_step g).p1.score = g.p1.score + 1) ∧
      (score_step g).p0.score = g.p0.score) ∧
    (g.p1.collided = true → g.p0.collided = false →
      (score_step g).p0.score = (g.p0.score + 1) % 65536 ∧
      (g.p0.score < 65535 → (score_step g).p0.score = g.p0.score + 1) ∧
      (score_step g).p1.score = g.p1.score) := by
  constructor
  · intro h0 h1
    simp only [score_step, h0, h1, if_true, Bool.false_eq_true, if_false]
    refine ⟨trivial, fun h => Nat.mod_eq_of_lt (by omega), trivial⟩
  · intro h1 h0
    simp only [score_step, h0, h1, if_true, Bool.false_eq_true, if_false]
    refine ⟨trivial, fun h => Nat.mod_eq_of_lt (by omega), trivial⟩

/-- C3 at a concrete input: only player 1 collided, scores 3 and 5 become 3
and 6. -/
theorem score_step_single_collision_witness :
    (score_step (ended true false 3 5)).p1.score = 6 ∧
    (score_step (ended true false 3 5)).p0.score = 3 :=
  ⟨((score_step_single_collision (ended true false 3 5)).1 rfl rfl).2.1 (by decide),
   ((score_step_single_collision (ended true false 3 5)).1 rfl rfl).2.2⟩

/-! ## The winner check (C2) -/

theorem OnlyVram.vrefl (g : Game) : OnlyVram g g := rfl

theorem OnlyVram.vtrans {a b c : Game} (h1 : OnlyVram a b) (h2 : OnlyVram b c) :
    OnlyVram a c := by
  unfold OnlyVram at *
  rw [h2, h1]

theorem poke_onlyVram (g : Game) (a v : Nat) : OnlyVram g (poke g a v) := rfl

theorem cputcxy_onlyVram (E : Env) (x y ch : Nat) (g : Game) :
    OnlyVram g (cputcxy E x y ch g) := rfl

theorem clrscr_onlyVram (g : Game) : OnlyVram g (clrscr g) := rfl

theorem foldl_onlyVram {α : Type} (f : Game → α → Game)
    (hf : ∀ g a, OnlyVram g (f g a)) (l : List α) (g : Game) :
    OnlyVram g (l.foldl f g) := by
  induction l generalizing g with
  | nil => exact OnlyVram.vrefl g
  | cons a l ih => exact (hf g a).vtrans (ih (f g a))

theorem cputsxy_onlyVram (E : Env) (x y : Nat) (str : List Nat) (g : Game) :
    OnlyVram g (cputsxy E x y str g) :=
  foldl_onlyVram _ (fun g _ => poke_onlyVram g _ _) _ g

theorem declare_winner_calls (E : Env) (w : Nat) (g : Game) :
    (declare_winner E w g).winner_calls = w :: g.winner_calls := by
  have h1 := clrscr_onlyVram g
  have h2 := cputsxy_onlyVram E 12 10 [87, 73, 78, 78, 69, 82, 58] (clrscr g)
  have h3 := cputsxy_onlyVram E 12 13 [80, 76, 65, 89, 69, 82, 32] _ |> (h1.vtrans h2).vtrans
  have h4 := h3.vtrans (cputcxy_onlyVram E (12 + 7) 13 ((49 + w) % 256) _)
  show _ :: (cputcxy E (12 + 7) 13 ((49 + w) % 256) _).winner_calls = _
  rw [h4]

theorem declare_winner_gameover (E : Env) (w : Nat) (g : Game) :
    (declare_winner E w g).gameover = 1 ∧ (declare_winner E w g).attract = 1 :=
  ⟨rfl, rfl⟩

/-- C2: the winner check of `play_round` calls `declare_winner` (which sets
`gameover`) exactly when the two scores are unequal and one of them is at
least `MAX_SCORE` = 7; when the scores are equal it changes nothing: no winner
is declared and `gameover` keeps its value, even with a score of 7 or more. -/
theorem winner_check_tie_rule (E : Env) (g : Game) :
    ((∃ w, (winner_check E g).winner_calls = w :: g.winner_calls) ↔
      (g.p0.score ≠ g.p1.score ∧ (g.p0.score ≥ 7 ∨ g.p1.score ≥ 7))) ∧
    ((∃ w, (winner_check E g).winner_calls = w :: g.winner_calls) →
      (winner_check E g).gameover = 1) ∧
    (¬ (∃ w, (winner_check E g).winner_calls = w :: g.winner_calls) →
      winner_check E g = g) ∧
    (g.p0.score = g.p1.score → winner_check E g = g) := by
  have hne : ∀ w, ¬ g.winner_calls = w :: g.winner_calls := fun w h => by
    have := congrArg List.length h
    simp at this
  unfold winner_check MAX_SCORE
  by_cases hs : g.p0.score = g.p1.score
  · simp [hs, hne]
  · by_cases h0 : g.p0.score ≥ 7
    · simp [hs, h0, declare_winner_calls, (declare_winner_gameover E 0 g).1]
    · by_cases h1 : g.p1.score ≥ 7
      · simp [hs, h0, h1, declare_winner_calls, (declare_winner_gameover E 1 g).1]
      · simp [hs, h0, h1, hne]

/-- C2 at a concrete input: with the scores tied at 7 the check changes
nothing, with 7 against 3 it declares player 1 (index 0) and sets `gameover`. -/
theorem winner_check_tie_rule_witness :
    winner_check (nes []) (ended true true 7 7) = ended true true 7 7 ∧
    (winner_check (nes []) (ended false true 7 3)).gameover = 1 :=
  ⟨(winner_check_tie_rule (nes []) (ended true true 7 7)).2.2.2 rfl,
   (winner_check_tie_rule (nes []) (ended false true 7 3)).2.1
     (((winner_check_tie_rule (nes []) (ended false true 7 3)).1).2
       ⟨by decide, Or.inl (by decide)⟩)⟩

/-! ## Access to `players[i]` -/

theorem players_setPlayer_same (g : Game) (k : Nat) (p : Player) :
    (g.setPlayer k p).players k = p := by
  cases k <;> rfl

/-! ## The human controller (C5) -/

theorem pad_dir_cases (E : Env) (pad : Nat) :
    pad_dir E pad = 0xff ∨ pad_dir E pad < 4 := by
  unfold pad_dir D_LEFT D_RIGHT D_UP D_DOWN
  split_ifs <;> simp

theorem pad_poll_players (E : Env) (c : Nat) (g : Game) (j : Nat) :
    (pad_poll E c g).2.players j = g.players j := by
  cases j <;> rfl

theorem start_buttons_players (E : Env) (pad : Nat) (g : Game) (j : Nat) :
    (start_buttons E pad g).players j = g.players j := by
  unfold start_buttons
  split_ifs <;> cases j <;> rfl

theorem steer_no_reverse (E : Env) (k : Nat) (pad : Nat) (g : Game) :
    (((steer E k pad g).players k).dir = (g.players k).dir ∨
      (((steer E k pad g).players k).dir < 4 ∧
        ((steer E k pad g).players k).dir ≠ (g.players k).dir ^^^ 2)) ∧
    ((g.players k).human = false → ((steer E k pad g).players k).dir = (g.players k).dir) := by
  unfold steer
  by_cases hh : (g.players k).human = false
  · rw [if_pos hh]
    exact ⟨Or.inl rfl, fun _ => rfl⟩
  · rw [if_neg hh]
    by_cases hd : pad_dir E pad < 0x80 ∧ pad_dir E pad ≠ (g.players k).dir ^^^ 2
    · rw [if_pos hd, players_setPlayer_same]
      refine ⟨Or.inr ⟨?_, hd.2⟩, fun h => absurd h hh⟩
      rcases pad_dir_cases E pad with h | h
      · exact absurd hd.1 (by rw [h]; decide)
      · exact h
    · rw [if_neg hd]
      exact ⟨Or.inl rfl, fun _ => rfl⟩

/-- C5: for every pad state and every player, after `human_control` the
player's direction is either unchanged or one of the four cardinal directions
and different from the exact opposite (`dir ^ 2`) of the direction it had before
the call; for a player that is not human the direction is unchanged. -/
theorem human_control_no_reverse (E : Env) (k : Nat) (g : Game) :
    (((human_control E k g).players k).dir = (g.players k).dir ∨
      (((human_control E k g).players k).dir < 4 ∧
        ((human_control E k g).players k).dir ≠ (g.players k).dir ^^^ 2)) ∧
    ((g.players k).human = false →
      ((human_control E k g).players k).dir = (g.players k).dir) := by
  have key : ∀ (c : Nat),
      (start_buttons E (pad_poll E c g).1 (pad_poll E c g).2).players k = g.players k := by
    intro c
    rw [start_buttons_players, pad_poll_players]
  unfold human_control
  by_cases hn : (g.players k).num = 2
  · rw [if_pos hn]
    have h := steer_no_reverse E k (pad_poll E 1 g).1
      (start_buttons E (pad_poll E 1 g).1 (pad_poll E 1 g).2)
    rw [key 1] at h
    exact h
  · rw [if_neg hn]
    have h := steer_no_reverse E k (pad_poll E 0 g).1
      (start_buttons E (pad_poll E 0 g).1 (pad_poll E 0 g).2)
    rw [key 0] at h
    exact h

/-! ## What a move keeps -/

theorem SameCore.crefl (p : Player) : SameCore p p :=
  ⟨rfl, rfl, rfl, rfl, rfl, rfl, rfl⟩

theorem SameCore.ctrans {a b c : Player} (h1 : SameCore a b) (h2 : SameCore b c) :
    SameCore a c :=
  ⟨h2.dir.trans h1.dir, h2.score.trans h1.score, h2.head_attr.trans h1.head_attr,
   h2.collided.trans h1.collided, h2.human.trans h1.human, h2.num.trans h1.num,
   h2.length.trans h1.length⟩

theorem Kept.krefl (g : Game) : Kept g g :=
  ⟨rfl, rfl, rfl, rfl, rfl, SameCore.crefl _, SameCore.crefl _⟩

theorem Kept.ktrans {a b c : Game} (h1 : Kept a b) (h2 : Kept b c) : Kept a c :=
  ⟨h2.pow.trans h1.pow, h2.attract.trans h1.attract, h2.num_players.trans h1.num_players,
   h2.gameover.trans h1.gameover, h2.frames_per_move.trans h1.frames_per_move,
   h1.p0.ctrans h2.p0, h1.p1.ctrans h2.p1⟩

theorem Kept.kplayers {g g' : Game} (h : Kept g g') (j : Nat) :
    SameCore (g.players j) (g'.players j) := by
  cases j
  · exact h.p0
  · exact h.p1

theorem OnlyVram.kept {g g' : Game} (h : OnlyVram g g') : Kept g g' := by
  unfold OnlyVram at h
  rw [h]
  exact ⟨rfl, rfl, rfl, rfl, rfl, SameCore.crefl _, SameCore.crefl _⟩

theorem setPlayer_kept (g : Game) (k : Nat) (p : Player) (h : SameCore (g.players k) p) :
    Kept g (g.setPlayer k p) := by
  cases k
  · exact ⟨rfl, rfl, rfl, rfl, rfl, h, SameCore.crefl _⟩
  · exact ⟨rfl, rfl, rfl, rfl, rfl, SameCore.crefl _, h⟩

theorem update_body_loop_kept (E : Env) (n k : Nat) :
    ∀ (i tx ty : Nat) (g g' : Game),
      update_body_loop E n k i tx ty g = some g' → Kept g g' := by
  induction n with
  | zero => intro i tx ty g g' h; simp [update_body_loop] at h
  | succ n ih =>
    intro i tx ty g g' h
    unfold update_body_loop at h
    split_ifs at h with h1 h2
    · cases hb : (g.players k).body[i]? with
      | none => simp [hb] at h
      | some b =>
        simp only [hb] at h
        have hk : Kept g (g.setPlayer k
            { g.players k with body := (g.players k).body.set i { b with x := tx, y := ty } }) :=
          setPlayer_kept g k _ ⟨rfl, rfl, rfl, rfl, rfl, rfl, rfl⟩
        split_ifs at h with h3
        · exact hk.ktrans (ih _ _ _ _ _ h)
        · injection h with h
          subst h
          exact hk.ktrans (cputcxy_onlyVram E tx ty 0 _).kept
    · injection h with h
      subst h
      exact Kept.krefl g

theorem step_head_kept (k : Nat) (g g' : Game) (h : step_head k g = some g') : Kept g g' := by
  unfold step_head at h
  split at h
  · injection h with h
    subst h
    exact setPlayer_kept g k _ ⟨rfl, rfl, rfl, rfl, rfl, rfl, rfl⟩
  · simp at h

theorem before_check_kept (E : Env) (k : Nat) (g g' : Game)
    (h : before_check E k g = some g') : Kept g g' := by
  unfold before_check at h
  split at h
  · simp at h
  · rename_i g1 h1
    exact ((cputcxy_onlyVram E _ _ _ g).kept.ktrans
      (update_body_loop_kept E 46 k _ _ _ _ _ h1)).ktrans (step_head_kept k g1 g' h)

theorem players_setPlayer_other (g : Game) (j k : Nat) (p : Player) (h : ¬ SameSlot j k) :
    (g.setPlayer k p).players j = g.players j := by
  unfold SameSlot at h
  cases k <;> cases j <;> simp at h <;> rfl

theorem players_eq_of_sameSlot (g : Game) (j k : Nat) (h : SameSlot j k) :
    g.players j = g.players k := by
  unfold SameSlot at h
  cases k <;> cases j <;> simp at h <;> rfl

theorem OnlyVram.players_eq {g g' : Game} (h : OnlyVram g g') (j : Nat) :
    g'.players j = g.players j := by
  unfold OnlyVram at h
  rw [h]
  cases j <;> rfl

/-! ## Pickup placement keeps the players -/

theorem PlaceKept.prefl (g : Game) : PlaceKept g g :=
  ⟨rfl, rfl, rfl, rfl, rfl, rfl, rfl, rfl⟩

theorem PlaceKept.ptrans {a b c : Game} (h1 : PlaceKept a b) (h2 : PlaceKept b c) :
    PlaceKept a c :=
  ⟨h2.p0.trans h1.p0, h2.p1.trans h1.p1, h2.attract.trans h1.attract,
   h2.num_players.trans h1.num_players, h2.gameover.trans h1.gameover,
   h2.frames_per_move.trans h1.frames_per_move, h2.attr.trans h1.attr, h2.vram.trans h1.vram⟩

theorem PlaceKept.pplayers {g g' : Game} (h : PlaceKept g g') (j : Nat) :
    g'.players j = g.players j := by
  cases j
  · exact h.p0
  · exact h.p1

theorem rand_pos_placeKept (E : Env) (g : Game) : PlaceKept g (rand_pos E g) :=
  ⟨rfl, rfl, rfl, rfl, rfl, rfl, rfl, rfl⟩

theorem rand_place_loop_placeKept (E : Env) (fuel : Nat) :
    ∀ g g' : Game, rand_place_loop E fuel g = some g' → PlaceKept g g' := by
  induction fuel with
  | zero => intro g g' h; simp [rand_place_loop] at h
  | succ n ih =>
    intro g g' h
    unfold rand_place_loop at h
    split_ifs at h with h1
    · exact (rand_pos_placeKept E g).ptrans (ih _ _ h)
    · injection h with h
      subst h
      exact PlaceKept.prefl g

theorem rand_place_placeKept (E : Env) (fuel : Nat) (g g' : Game)
    (h : rand_place E fuel g = some g') : PlaceKept g g' := by
  unfold rand_place at h
  have h1 : PlaceKept g (rand_pos E { (rand8 E g).2 with
      seed := ((rand8 E g).2.seed + (rand8 E g).1) % 256 }) :=
    ⟨rfl, rfl, rfl, rfl, rfl, rfl, rfl, rfl⟩
  exact h1.ptrans (rand_place_loop_placeKept E fuel _ _ h)

/-! ## Pickup placement returns once an empty cell is drawn -/

theorem tried_pos_rand_pos (E : Env) (g : Game) (i : Nat) :
    tried_pos E (rand_pos E g) i = tried_pos E g (i + 1) := by
  cases i with
  | zero => rfl
  | succ j =>
    show ((E.rand_stream (g.rand_calls + 1 + 1 + 2 * j) % 256) % (29 - 2 + 1) + 2,
          (E.rand_stream (g.rand_calls + 1 + 1 + 2 * j + 1) % 256) % (23 - 3 + 1) + 3) =
         ((E.rand_stream (g.rand_calls + 2 * (j + 1)) % 256) % (29 - 2 + 1) + 2,
          (E.rand_stream (g.rand_calls + 2 * (j + 1) + 1) % 256) % (23 - 3 + 1) + 3)
    have e : g.rand_calls + 1 + 1 + 2 * j = g.rand_calls + 2 * (j + 1) := by omega
    rw [e]

/-- With `n` occupied positions tried before an empty one, `n + 1` rounds of
fuel are enough for the loop of `rand_place` to return. -/
theorem rand_place_loop_returns (E : Env) (n : Nat) :
    ∀ g : Game,
      (∀ i, i < n → g.vram (E.NTADR_A (tried_pos E g i).1 (tried_pos E g i).2) ≠ 0) →
      g.vram (E.NTADR_A (tried_pos E g n).1 (tried_pos E g n).2) = 0 →
      ∀ fuel, n < fuel → (rand_place_loop E fuel g).isSome = true := by
  induction n with
  | zero =>
    intro g _ h0 fuel hf
    cases fuel with
    | zero => omega
    | succ m =>
      unfold rand_place_loop
      have : getchar E g g.pow.x g.pow.y = 0 := h0
      simp [this]
  | succ n ih =>
    intro g hocc h0 fuel hf
    cases fuel with
    | zero => omega
    | succ m =>
      unfold rand_place_loop
      have h1 : getchar E g g.pow.x g.pow.y ≠ 0 := hocc 0 (by omega)
      rw [if_pos h1]
      apply ih (rand_pos E g)
      · intro i hi
        rw [tried_pos_rand_pos]
        exact hocc (i + 1) (by omega)
      · rw [tried_pos_rand_pos]
        exact h0
      · omega

/-! ## The three outcomes of the head check -/

theorem check_head_empty (E : Env) (fuel k : Nat) (g : Game)
    (h : getchar E g (g.players k).x (g.players k).y = 0) :
    check_head E fuel k g = some g := by
  simp [check_head, h]

theorem check_head_occupied (E : Env) (fuel k : Nat) (g : Game)
    (h0 : getchar E g (g.players k).x (g.players k).y ≠ 0)
    (hp : getchar E g (g.players k).x (g.players k).y ≠ g.pow.attr) :
    check_head E fuel k g = some (g.setPlayer k { g.players k with collided := true }) := by
  simp [check_head, h0, hp]

theorem check_head_pickup (E : Env) (fuel k : Nat) (g : Game)
    (h0 : getchar E g (g.players k).x (g.players k).y ≠ 0)
    (hp : getchar E g (g.players k).x (g.players k).y = g.pow.attr) :
    check_head E fuel k g = eat_pickup E fuel k g := by
  unfold check_head
  rw [if_pos h0, if_pos hp]

/-- What the pickup branch does to the bookkeeping, when it returns. -/
theorem eat_pickup_spec (E : Env) (fuel k : Nat) (g g' : Game)
    (h : eat_pickup E fuel k g = some g') :
    (g'.players k).length = (g.players k).length + 1 ∧
    (1 ≤ (g.players k).length ∧ (g.players k).length ≤ 45) ∧
    (∀ j, (g'.players j).collided = (g.players j).collided) ∧
    (∀ j, ¬ SameSlot j k → g'.players j = g.players j) ∧
    g'.frames_per_move =
      (if g.frames_per_move > MAX_SPEED ∧ ((g.players k).human = true ∨ g.attract ≠ 0)
       then g.frames_per_move - 1 else g.frames_per_move) ∧
    g'.attract = g.attract ∧ g'.pow.attr = g.pow.attr := by
  unfold eat_pickup at h
  cases hr : rand_place E fuel g with
  | none => simp [hr] at h
  | some g1 =>
    simp only [hr] at h
    have hk := rand_place_placeKept E fuel g g1 hr
    have hd : ∀ j, (draw_powop E g1).players j = g.players j := fun j =>
      ((poke_onlyVram g1 _ _).players_eq j).trans (hk.pplayers j)
    have ha : (draw_powop E g1).attract = g.attract := hk.attract
    have hf : (draw_powop E g1).frames_per_move = g.frames_per_move := hk.frames_per_move
    have hattr : (draw_powop E g1).pow.attr = g.pow.attr := hk.attr
    generalize draw_powop E g1 = g2 at h hd ha hf hattr
    split_ifs at h with hb hc
    · injection h with h
      subst h
      refine ⟨?_, ?_, ?_, ?_, ?_, ?_, ?_⟩
      · show ((g2.setPlayer k _).players k).length = _
        rw [players_setPlayer_same, hd]
      · rw [hd] at hb; omega
      · intro j
        by_cases hj : SameSlot j k
        · show ((g2.setPlayer k _).players j).collided = _
          rw [players_eq_of_sameSlot _ j k hj, players_setPlayer_same,
            players_eq_of_sameSlot g j k hj, hd]
        · show ((g2.setPlayer k _).players j).collided = _
          rw [players_setPlayer_other _ j k _ hj, hd]
      · intro j hj
        show (g2.setPlayer k _).players j = _
        rw [players_setPlayer_other _ j k _ hj, hd]
      · have hc' : g.frames_per_move > MAX_SPEED ∧
            ((g.players k).human = true ∨ g.attract ≠ 0) := by
          have e1 : (g2.setPlayer k { g2.players k with
              body := setActive (g2.players k).body ((g2.players k).length - 1).toNat true,
              length := (g2.players k).length + 1 }).frames_per_move = g.frames_per_move := by
            rw [← hf]; cases k <;> rfl
          have e2 : (g2.setPlayer k { g2.players k with
              body := setActive (g2.players k).body ((g2.players k).length - 1).toNat true,
              length := (g2.players k).length + 1 }).attract = g.attract := by
            rw [← ha]; cases k <;> rfl
          rw [e1, e2, hd] at hc
          rcases hc with hc | hc
          · exact ⟨hc.1, Or.inl hc.2⟩
          · exact ⟨hc.1, Or.inr hc.2⟩
        rw [if_pos hc']
        show (g2.setPlayer k _).frames_per_move - 1 = _
        rw [← hf]; cases k <;> rfl
      · show (g2.setPlayer k _).attract = _
        rw [← ha]; cases k <;> rfl
      · show (g2.setPlayer k _).pow.attr = _
        rw [← hattr]; cases k <;> rfl
    · injection h with h
      subst h
      refine ⟨?_, ?_, ?_, ?_, ?_, ?_, ?_⟩
      · rw [players_setPlayer_same, hd]
      · rw [hd] at hb; omega
      · intro j
        by_cases hj : SameSlot j k
        · rw [players_eq_of_sameSlot _ j k hj, players_setPlayer_same,
            players_eq_of_sameSlot g j k hj, hd]
        · rw [players_setPlayer_other _ j k _ hj, hd]
      · intro j hj
        rw [players_setPlayer_other _ j k _ hj, hd]
      · have e1 : (g2.setPlayer k { g2.players k with
            body := setActive (g2.players k).body ((g2.players k).length - 1).toNat true,
            length := (g2.players k).length + 1 }).frames_per_move = g.frames_per_move := by
          rw [← hf]; cases k <;> rfl
        have e2 : (g2.setPlayer k { g2.players k with
            body := setActive (g2.players k).body ((g2.players k).length - 1).toNat true,
            length := (g2.players k).length + 1 }).attract = g.attract := by
          rw [← ha]; cases k <;> rfl
        rw [e1, e2, hd] at hc
        have hc' : ¬ (g.frames_per_move > MAX_SPEED ∧
            ((g.players k).human = true ∨ g.attract ≠ 0)) := by
          rintro ⟨a, b | b⟩
          · exact hc (Or.inl ⟨a, b⟩)
          · exact hc (Or.inr ⟨a, b⟩)
        rw [if_neg hc', e1]
      · rw [← ha]; cases k <;> rfl
      · rw [← hattr]; cases k <;> rfl

theorem eat_pickup_returns (E : Env) (fuel k : Nat) (g : Game)
    (hr : (rand_place E fuel g).isSome = true)
    (hl : 1 ≤ (g.players k).length ∧ (g.players k).length ≤ 45) :
    (eat_pickup E fuel k g).isSome = true := by
  unfold eat_pickup
  cases hr' : rand_place E fuel g with
  | none => simp [hr'] at hr
  | some g1 =>
    simp only []
    have hk := rand_place_placeKept E fuel g g1 hr'
    have hd : (draw_powop E g1).players k = g.players k :=
      ((poke_onlyVram g1 _ _).players_eq k).trans (hk.pplayers k)
    rw [hd]
    have hb : 0 ≤ (g.players k).length - 1 ∧ (g.players k).length - 1 < 45 := by omega
    rw [if_pos hb]
    split_ifs <;> rfl

/-! ## The shape of a move -/

theorem head_cell_some (E : Env) (k : Nat) (g : Game) (v : Nat)
    (h : head_cell E k g = some v) :
    ∃ g2, before_check E k g = some g2 ∧ getchar E g2 (g2.players k).x (g2.players k).y = v := by
  unfold head_cell at h
  cases hb : before_check E k g with
  | none => simp [hb] at h
  | some g2 =>
    simp only [hb] at h
    exact ⟨g2, rfl, Option.some.inj h⟩

theorem move_player_of_before (E : Env) (fuel k : Nat) (g g2 : Game)
    (h : before_check E k g = some g2) :
    move_player E fuel k g = (check_head E fuel k g2).map (draw_player E k) := by
  unfold move_player
  rw [h]
  cases hc : check_head E fuel k g2 <;> simp [hc]

theorem move_player_some (E : Env) (fuel k : Nat) (g g' : Game)
    (h : move_player E fuel k g = some g') :
    ∃ g2 g3, before_check E k g = some g2 ∧ check_head E fuel k g2 = some g3 ∧
      g' = draw_player E k g3 := by
  cases hb : before_check E k g with
  | none => simp [move_player, hb] at h
  | some g2 =>
    rw [move_player_of_before E fuel k g g2 hb] at h
    cases hc : check_head E fuel k g2 with
    | none => simp [hc] at h
    | some g3 =>
      rw [hc] at h
      exact ⟨g2, g3, rfl, hc, (Option.some.inj h).symm⟩

theorem draw_player_players (E : Env) (k : Nat) (g : Game) (j : Nat) :
    (draw_player E k g).players j = g.players j :=
  (cputcxy_onlyVram E _ _ _ g).players_eq j

/-- The bookkeeping of the head check: on a pickup the mover's length grows by
one and the pacing interval may go down by one; otherwise both stay; the other
player's length stays in every case. -/
theorem check_head_spec (E : Env) (fuel k : Nat) (g g' : Game)
    (h : check_head E fuel k g = some g') :
    ((getchar E g (g.players k).x (g.players k).y ≠ 0 ∧
        getchar E g (g.players k).x (g.players k).y = g.pow.attr) →
      (g'.players k).length = (g.players k).length + 1 ∧
      g'.frames_per_move =
        (if g.frames_per_move > MAX_SPEED ∧ ((g.players k).human = true ∨ g.attract ≠ 0)
         then g.frames_per_move - 1 else g.frames_per_move)) ∧
    (¬ (getchar E g (g.players k).x (g.players k).y ≠ 0 ∧
        getchar E g (g.players k).x (g.players k).y = g.pow.attr) →
      (g'.players k).length = (g.players k).length ∧
      g'.frames_per_move = g.frames_per_move) ∧
    (∀ j, ¬ SameSlot j k → (g'.players j).length = (g.players j).length) := by
  by_cases h0 : getchar E g (g.players k).x (g.players k).y = 0
  · rw [check_head_empty E fuel k g h0] at h
    rw [← Option.some.inj h]
    exact ⟨fun hc => absurd h0 hc.1, fun _ => ⟨rfl, rfl⟩, fun _ _ => rfl⟩
  · by_cases hp : getchar E g (g.players k).x (g.players k).y = g.pow.attr
    · rw [check_head_pickup E fuel k g h0 hp] at h
      have hs := eat_pickup_spec E fuel k g g' h
      exact ⟨fun _ => ⟨hs.1, hs.2.2.2.2.1⟩, fun hc => absurd ⟨h0, hp⟩ hc,
        fun j hj => by rw [hs.2.2.2.1 j hj]⟩
    · rw [check_head_occupied E fuel k g h0 hp] at h
      rw [← Option.some.inj h]
      refine ⟨fun hc => absurd hc.2 hp, fun _ => ⟨?_, ?_⟩, fun j hj => ?_⟩
      · rw [players_setPlayer_same]
      · cases k <;> rfl
      · rw [players_setPlayer_other _ j k _ hj]

/-- The bookkeeping of a whole move, in terms of the byte `v` read at the new
head position. -/
theorem move_player_spec (E : Env) (fuel k : Nat) (g g' : Game)
    (h : move_player E fuel k g = some g') :
    ∃ v, head_cell E k g = some v ∧
      ((v ≠ 0 ∧ v = g.pow.attr) →
        (g'.players k).length = (g.players k).length + 1 ∧
        g'.frames_per_move =
          (if g.frames_per_move > MAX_SPEED ∧ ((g.players k).human = true ∨ g.attract ≠ 0)
           then g.frames_per_move - 1 else g.frames_per_move)) ∧
      (¬ (v ≠ 0 ∧ v = g.pow.attr) →
        (g'.players k).length = (g.players k).length ∧
        g'.frames_per_move = g.frames_per_move) ∧
      (∀ j, ¬ SameSlot j k → (g'.players j).length = (g.players j).length) := by
  obtain ⟨g2, g3, hb, hc, hd⟩ := move_player_some E fuel k g g' h
  have hk := before_check_kept E k g g2 hb
  have hs := check_head_spec E fuel k g2 g3 hc
  have hl : ∀ j, (g'.players j).length = (g3.players j).length := fun j => by
    rw [hd, draw_player_players]
  have hf : g'.frames_per_move = g3.frames_per_move := by rw [hd]; rfl
  refine ⟨getchar E g2 (g2.players k).x (g2.players k).y, ?_, ?_, ?_, ?_⟩
  · unfold head_cell; rw [hb]
  · intro hv
    rw [← hk.pow] at hv
    have := hs.1 hv
    rw [hl, hf, this.1, this.2, (hk.kplayers k).length, (hk.kplayers k).human,
      hk.frames_per_move, hk.attract]
    exact ⟨rfl, rfl⟩
  · intro hv
    rw [← hk.pow] at hv
    have := hs.2.1 hv
    rw [hl, hf, this.1, this.2, (hk.kplayers k).length, hk.frames_per_move]
    exact ⟨rfl, rfl⟩
  · intro j hj
    rw [hl, hs.2.2 j hj, (hk.kplayers j).length]

/-- C7: a `move_player` that returns never decreases the length of a player;
when the byte read at the new head position (`head_cell`) is 0 (EMPTY) or a
nonzero byte other than the pickup marker (OCCUPIED), `move_player` returns and
the mover's length is unchanged; when it is the (nonzero) pickup marker, every
result has the mover's length increased by exactly 1, and there is a result
whenever the length is within `1 .. 45` (the index `length-1` is inside `body`)
and `rand_place` returns. -/
theorem move_player_growth (E : Env) (fuel k : Nat) (g : Game) :
    (∀ g' j, move_player E fuel k g = some g' →
      (g.players j).length ≤ (g'.players j).length) ∧
    (∀ v, head_cell E k g = some v → (v = 0 ∨ v ≠ g.pow.attr) →
      ∃ g', move_player E fuel k g = some g' ∧
        (g'.players k).length = (g.players k).length) ∧
    (∀ v, head_cell E k g = some v → v ≠ 0 → v = g.pow.attr →
      (∀ g', move_player E fuel k g = some g' →
        (g'.players k).length = (g.players k).length + 1) ∧
      (1 ≤ (g.players k).length ∧ (g.players k).length ≤ 45 →
        ((before_check E k g).bind (rand_place E fuel)).isSome = true →
        (move_player E fuel k g).isSome = true)) := by
  refine ⟨?_, ?_, ?_⟩
  · intro g' j h
    obtain ⟨v, _, h1, h2, h3⟩ := move_player_spec E fuel k g g' h
    by_cases hs : SameSlot j k
    · rw [players_eq_of_sameSlot g j k hs, players_eq_of_sameSlot g' j k hs]
      by_cases hv : v ≠ 0 ∧ v = g.pow.attr
      · rw [(h1 hv).1]; omega
      · rw [(h2 hv).1]
    · rw [h3 j hs]
  · intro v hv hc
    obtain ⟨g2, hb, hg⟩ := head_cell_some E k g v hv
    have hk := before_check_kept E k g g2 hb
    have hsome : ∃ g3, check_head E fuel k g2 = some g3 := by
      by_cases h0 : getchar E g2 (g2.players k).x (g2.players k).y = 0
      · exact ⟨_, check_head_empty E fuel k g2 h0⟩
      · have hp : getchar E g2 (g2.players k).x (g2.players k).y ≠ g2.pow.attr := by
          rw [hg, hk.pow]
          rcases hc with hc | hc
          · exact absurd (hg.trans hc) h0
          · exact hc
        exact ⟨_, check_head_occupied E fuel k g2 h0 hp⟩
    obtain ⟨g3, h3⟩ := hsome
    have hm : move_player E fuel k g = some (draw_player E k g3) := by
      rw [move_player_of_before E fuel k g g2 hb, h3]; rfl
    refine ⟨_, hm, ?_⟩
    obtain ⟨v', hv', _, h2, _⟩ := move_player_spec E fuel k g _ hm
    have hvv : v' = v := Option.some.inj (hv'.symm.trans hv)
    rw [hvv] at h2
    refine (h2 ?_).1
    rintro ⟨a, b⟩
    rcases hc with hc | hc
    · exact a hc
    · exact hc b
  · intro v hv h0 hp
    constructor
    · intro g' h
      obtain ⟨v', hv', h1, _, _⟩ := move_player_spec E fuel k g g' h
      have hvv : v' = v := Option.some.inj (hv'.symm.trans hv)
      rw [hvv] at h1
      exact (h1 ⟨h0, hp⟩).1
    · intro hl hr
      obtain ⟨g2, hb, hg⟩ := head_cell_some E k g v hv
      have hk := before_check_kept E k g g2 hb
      rw [hb] at hr
      have h0' : getchar E g2 (g2.players k).x (g2.players k).y ≠ 0 := by rw [hg]; exact h0
      have hp' : getchar E g2 (g2.players k).x (g2.players k).y = g2.pow.attr := by
        rw [hg, hk.pow]; exact hp
      rw [move_player_of_before E fuel k g g2 hb, check_head_pickup E fuel k g2 h0' hp']
      have hl' : 1 ≤ (g2.players k).length ∧ (g2.players k).length ≤ 45 := by
        rw [(hk.kplayers k).length]; exact hl
      have := eat_pickup_returns E fuel k g2 hr hl'
      cases he : eat_pickup E fuel k g2 with
      | none => rw [he] at this; exact absurd this (by decide)
      | some g3 => rfl

/-- C7 at a concrete input: player 1 at `(5,5)` has the pickup in front of it;
`move_player` returns and its length goes from 2 to 3. -/
theorem move_player_growth_witness :
    (move_player (nes [0, 8, 7]) 1 0 (field 5)).isSome = true ∧
    (∀ g', move_player (nes [0, 8, 7]) 1 0 (field 5) = some g' →
      (g'.players 0).length = 2 + 1) :=
  ⟨((move_player_growth (nes [0, 8, 7]) 1 0 (field 5)).2.2 0xad
      (by decide!) (by decide) (by decide!)).2 (by decide!) (by decide!),
   ((move_player_growth (nes [0, 8, 7]) 1 0 (field 5)).2.2 0xad
      (by decide!) (by decide) (by decide!)).1⟩

/-- C8: from a state with `frames_per_move >= MAX_SPEED` (2), a `move_player`
that returns never increases `frames_per_move` and never takes it below 2; it
changes `frames_per_move` exactly when the mover consumes the pickup (the byte
read at the new head position is the nonzero pickup marker),
`frames_per_move > 2`, and the mover is human or attract mode is on; the change
is a decrease by exactly 1. -/
theorem move_player_pacing (E : Env) (fuel k : Nat) (g : Game)
    (hf : MAX_SPEED ≤ g.frames_per_move) :
    ∀ g', move_player E fuel k g = some g' →
      g'.frames_per_move ≤ g.frames_per_move ∧ MAX_SPEED ≤ g'.frames_per_move ∧
      (g'.frames_per_move ≠ g.frames_per_move ↔
        (head_cell E k g = some g.pow.attr ∧ g.pow.attr ≠ 0 ∧
          g.frames_per_move > MAX_SPEED ∧
          ((g.players k).human = true ∨ g.attract ≠ 0))) ∧
      (g'.frames_per_move ≠ g.frames_per_move →
        g'.frames_per_move + 1 = g.frames_per_move) := by
  intro g' h
  obtain ⟨v, hv, h1, h2, _⟩ := move_player_spec E fuel k g g' h
  unfold MAX_SPEED at *
  by_cases hc : v ≠ 0 ∧ v = g.pow.attr
  · have e := (h1 hc).2
    by_cases hd : g.frames_per_move > 2 ∧ ((g.players k).human = true ∨ g.attract ≠ 0)
    · rw [if_pos hd] at e
      refine ⟨by omega, by omega, ⟨fun _ => ⟨?_, ?_, hd.1, hd.2⟩, fun _ => by omega⟩,
        fun _ => by omega⟩
      · rw [hv, hc.2]
      · rw [← hc.2]; exact hc.1
    · rw [if_neg hd] at e
      refine ⟨by omega, by omega, ⟨fun hne => absurd e hne, fun hx => absurd ⟨hx.2.2.1, hx.2.2.2⟩ hd⟩,
        fun hne => absurd e hne⟩
  · have e := (h2 hc).2
    refine ⟨by omega, by omega, ⟨fun hne => absurd e hne, fun hx => ?_⟩, fun hne => absurd e hne⟩
    have hvv : v = g.pow.attr := Option.some.inj (hv.symm.trans hx.1)
    exact absurd ⟨by rw [hvv]; exact hx.2.1, hvv⟩ hc

/-- C8 at a concrete input: in attract mode with `frames_per_move = 4`, player
1 at `(5,5)` consumes the pickup in front of it: `move_player` returns and
`frames_per_move` is 3 afterwards. -/
theorem move_player_pacing_witness :
    (move_player (nes [0, 8, 7]) 1 0 (field 5)).isSome = true ∧
    (∀ g', move_player (nes [0, 8, 7]) 1 0 (field 5) = some g' →
      g'.frames_per_move + 1 = 4) :=
  ⟨by decide!, fun g' h =>
    ((move_player_pacing (nes [0, 8, 7]) 1 0 (field 5) (by decide) g' h).2.2.2
      (fun e => absurd
        (((move_player_pacing (nes [0, 8, 7]) 1 0 (field 5) (by decide) g' h).2.2.1).2
          ⟨by decide!, by decide, by decide, Or.inr (by decide)⟩) (not_not.mpr e)))⟩

/-! ## What `update_body` does to the other player, the position and the screen -/

theorem setPlayer_vram (g : Game) (k : Nat) (p : Player) : (g.setPlayer k p).vram = g.vram := by
  cases k <;> rfl

theorem update_body_loop_others (E : Env) (n k : Nat) :
    ∀ (i tx ty : Nat) (g g' : Game), update_body_loop E n k i tx ty g = some g' →
      (∀ j, ¬ SameSlot j k → g'.players j = g.players j) ∧
      (g'.players k).x = (g.players k).x ∧ (g'.players k).y = (g.players k).y := by
  induction n with
  | zero => intro i tx ty g g' h; simp [update_body_loop] at h
  | succ n ih =>
    intro i tx ty g g' h
    unfold update_body_loop at h
    split_ifs at h with h1 h2
    · cases hb : (g.players k).body[i]? with
      | none => simp [hb] at h
      | some b =>
        simp only [hb] at h
        split_ifs at h with h3
        · obtain ⟨a1, a2, a3⟩ := ih _ _ _ _ _ h
          refine ⟨fun j hj => ?_, ?_, ?_⟩
          · rw [a1 j hj, players_setPlayer_other _ j k _ hj]
          · rw [a2, players_setPlayer_same]
          · rw [a3, players_setPlayer_same]
        · injection h with h
          subst h
          refine ⟨fun j hj => ?_, ?_, ?_⟩
          · rw [(cputcxy_onlyVram E tx ty 0 _).players_eq, players_setPlayer_other _ j k _ hj]
          · rw [(cputcxy_onlyVram E tx ty 0 _).players_eq, players_setPlayer_same]
          · rw [(cputcxy_onlyVram E tx ty 0 _).players_eq, players_setPlayer_same]
    · injection h with h
      subst h
      exact ⟨fun _ _ => rfl, rfl, rfl⟩

/-- The loop of `update_body` changes at most one cell of the screen, to 0; the
cell is the carried position or the position of an active segment at or after
the index the loop is entered at. -/
theorem update_body_loop_vram (E : Env) (n k : Nat) :
    ∀ (i tx ty : Nat) (g g' : Game), update_body_loop E n k i tx ty g = some g' →
      ∀ a, (g'.vram a = g.vram a ∨ g'.vram a = 0) ∧
        (a ≠ E.NTADR_A tx ty →
          (∀ j b, i ≤ j → (j : Int) < (g.players k).length →
            (g.players k).body[j]? = some b → b.active = true → a ≠ E.NTADR_A b.x b.y) →
          g'.vram a = g.vram a) := by
  induction n with
  | zero => intro i tx ty g g' h; simp [update_body_loop] at h
  | succ n ih =>
    intro i tx ty g g' h a
    unfold update_body_loop at h
    split_ifs at h with h1 h2
    · cases hb : (g.players k).body[i]? with
      | none => simp [hb] at h
      | some b =>
        simp only [hb] at h
        split_ifs at h with h3
        · have hi := ih _ _ _ _ _ h a
          rw [setPlayer_vram] at hi
          refine ⟨hi.1, fun ha hall => hi.2 (hall i b (le_refl i) h1 hb h3) ?_⟩
          intro j b' hij hj hb' hact
          rw [players_setPlayer_same] at hj hb'
          have hne : i ≠ j := by omega
          rw [show ({ g.players k with
              body := (g.players k).body.set i { b with x := tx, y := ty } } : Player).body =
              (g.players k).body.set i { b with x := tx, y := ty } from rfl,
            List.getElem?_set_ne hne] at hb'
          exact hall j b' (by omega) hj hb' hact
        · injection h with h
          subst h
          have hv : ∀ a, (cputcxy E tx ty 0 (g.setPlayer k { g.players k with
              body := (g.players k).body.set i { b with x := tx, y := ty } })).vram a =
              if a = E.NTADR_A tx ty then 0 else g.vram a := by
            intro a
            show (if a = E.NTADR_A tx ty then 0 else (g.setPlayer k _).vram a) = _
            rw [setPlayer_vram]
          rw [hv]
          by_cases ha : a = E.NTADR_A tx ty
          · rw [if_pos ha]
            exact ⟨Or.inr rfl, fun hne => absurd ha hne⟩
          · rw [if_neg ha]
            exact ⟨Or.inl rfl, fun _ _ => rfl⟩
    · injection h with h
      subst h
      exact ⟨Or.inl rfl, fun _ _ => rfl⟩

/-- With the 45 entries of `body` in place and `length <= 45` the loop of
`update_body` returns. -/
theorem update_body_loop_returns (E : Env) (n k : Nat) :
    ∀ (i tx ty : Nat) (g : Game), 46 ≤ n + i → i ≤ 45 →
      (g.players k).body.length = 45 → (g.players k).length ≤ 45 →
      (update_body_loop E n k i tx ty g).isSome = true := by
  induction n with
  | zero => intro i tx ty g h1 h2; omega
  | succ n ih =>
    intro i tx ty g h1 h2 hb hl
    unfold update_body_loop
    by_cases hi : (i : Int) < (g.players k).length
    · rw [if_pos hi]
      have hi45 : i < 45 := by omega
      rw [if_pos hi45]
      have hlt : i < (g.players k).body.length := by rw [hb]; exact hi45
      rw [List.getElem?_eq_getElem hlt]
      simp only []
      split_ifs
      · apply ih
        · omega
        · omega
        · rw [players_setPlayer_same]
          show ((g.players k).body.set i _).length = 45
          rw [List.length_set]; exact hb
        · rw [players_setPlayer_same]; exact hl
      · rfl
    · rw [if_neg hi]; rfl

/-! ## The state in which the new head's cell is read -/

theorem before_check_split (E : Env) (k : Nat) (g g2 : Game)
    (h : before_check E k g = some g2) :
    ∃ gu, update_body_loop E 46 k 0 (g.players k).x (g.players k).y (draw_player E k g) = some gu ∧
      step_head k gu = some g2 := by
  unfold before_check at h
  cases hu : update_body E k (draw_player E k g) with
  | none => simp [hu] at h
  | some gu =>
    simp only [hu] at h
    refine ⟨gu, ?_, h⟩
    unfold update_body at hu
    rw [draw_player_players] at hu
    exact hu

theorem step_head_spec (k : Nat) (g g' : Game) (h : step_head k g = some g') :
    next_head (g.players k) = some ((g'.players k).x, (g'.players k).y) ∧
    (∀ j, ¬ SameSlot j k → g'.players j = g.players j) ∧ g'.vram = g.vram := by
  unfold step_head at h
  unfold next_head
  cases hx : DIR_X[(g.players k).dir]? with
  | none => simp [hx] at h
  | some dx =>
    cases hy : DIR_Y[(g.players k).dir]? with
    | none => simp [hx, hy] at h
    | some dy =>
      simp only [hx, hy] at h
      rw [← Option.some.inj h]
      refine ⟨?_, fun j hj => players_setPlayer_other _ j k _ hj, setPlayer_vram _ _ _⟩
      rw [players_setPlayer_same]

theorem before_check_pos (E : Env) (k : Nat) (g g2 : Game)
    (h : before_check E k g = some g2) :
    next_head (g.players k) = some ((g2.players k).x, (g2.players k).y) := by
  obtain ⟨gu, hu, hs⟩ := before_check_split E k g g2 h
  have hk := update_body_loop_kept E 46 k _ _ _ _ _ hu
  have ho := update_body_loop_others E 46 k _ _ _ _ _ hu
  have h1 := (step_head_spec k gu g2 hs).1
  rw [← h1]
  unfold next_head
  rw [(hk.kplayers k).dir, ho.2.1, ho.2.2, draw_player_players]

theorem before_check_others (E : Env) (k : Nat) (g g2 : Game)
    (h : before_check E k g = some g2) (j : Nat) (hj : ¬ SameSlot j k) :
    g2.players j = g.players j := by
  obtain ⟨gu, hu, hs⟩ := before_check_split E k g g2 h
  rw [(step_head_spec k gu g2 hs).2.1 j hj,
    (update_body_loop_others E 46 k _ _ _ _ _ hu).1 j hj, draw_player_players]

/-- Up to the read of the new head's cell, a move writes the head character at
the old head position and clears at most one more cell, which is the old head
position or the position of an active segment below `length`. -/
theorem before_check_vram (E : Env) (k : Nat) (g g2 : Game)
    (h : before_check E k g = some g2) (a : Nat)
    (ha : a ≠ E.NTADR_A (g.players k).x (g.players k).y) :
    (g2.vram a = g.vram a ∨ g2.vram a = 0) ∧
    ((∀ (j : Nat) (b : BodyPart), (j : Int) < (g.players k).length →
        (g.players k).body[j]? = some b → b.active = true → a ≠ E.NTADR_A b.x b.y) →
      g2.vram a = g.vram a) := by
  obtain ⟨gu, hu, hs⟩ := before_check_split E k g g2 h
  have hv := update_body_loop_vram E 46 k _ _ _ _ _ hu a
  have hd : (draw_player E k g).vram a = g.vram a := by
    show (if a = E.NTADR_A (g.players k).x (g.players k).y then _ else g.vram a) = _
    rw [if_neg ha]
  rw [(step_head_spec k gu g2 hs).2.2, ← hd]
  refine ⟨hv.1, fun hall => hv.2 ha ?_⟩
  intro j b _ hj hb hact
  rw [draw_player_players] at hj hb
  exact hall j b hj hb hact

theorem before_check_returns (E : Env) (k : Nat) (g : Game) (hw : WellFormed (g.players k)) :
    (before_check E k g).isSome = true := by
  unfold before_check update_body
  have hr := update_body_loop_returns E 46 k 0 ((draw_player E k g).players k).x
    ((draw_player E k g).players k).y (draw_player E k g) (by omega) (by omega)
    (by rw [draw_player_players]; exact hw.1) (by rw [draw_player_players]; exact hw.2.1)
  cases hu : update_body_loop E 46 k 0 ((draw_player E k g).players k).x
      ((draw_player E k g).players k).y (draw_player E k g) with
  | none => rw [hu] at hr; exact absurd hr (by decide)
  | some gu =>
    simp only []
    have hk := update_body_loop_kept E 46 k _ _ _ _ _ hu
    have hdir : (gu.players k).dir < 4 := by
      rw [(hk.kplayers k).dir, draw_player_players]; exact hw.2.2
    unfold step_head
    have hx : (gu.players k).dir < DIR_X.length := hdir
    have hy : (gu.players k).dir < DIR_Y.length := hdir
    rw [List.getElem?_eq_getElem hx, List.getElem?_eq_getElem hy]
    rfl

theorem move_player_empty (E : Env) (fuel k : Nat) (g g2 : Game)
    (hb : before_check E k g = some g2)
    (h0 : getchar E g2 (g2.players k).x (g2.players k).y = 0) :
    move_player E fuel k g = some (draw_player E k g2) := by
  rw [move_player_of_before E fuel k g g2 hb, check_head_empty E fuel k g2 h0]
  rfl

theorem move_player_occupied (E : Env) (fuel k : Nat) (g g2 : Game)
    (hb : before_check E k g = some g2)
    (h0 : getchar E g2 (g2.players k).x (g2.players k).y ≠ 0)
    (hp : getchar E g2 (g2.players k).x (g2.players k).y ≠ g2.pow.attr) :
    move_player E fuel k g =
      some (draw_player E k (g2.setPlayer k { g2.players k with collided := true })) := by
  rw [move_player_of_before E fuel k g g2 hb, check_head_occupied E fuel k g2 h0 hp]
  rfl

/-- One step leads to a different position. -/
theorem next_head_ne (p : Player) (c : Nat × Nat) (h : next_head p = some c) :
    ¬ (p.x = c.1 ∧ p.y = c.2) := by
  unfold next_head at h
  have hd : p.dir < 4 ∨ 4 ≤ p.dir := by omega
  rcases hd with hd | hd
  · have h4 : p.dir = 0 ∨ p.dir = 1 ∨ p.dir = 2 ∨ p.dir = 3 := by omega
    rcases h4 with e | e | e | e <;> rw [e] at h <;> simp [DIR_X, DIR_Y] at h <;>
      rw [← h] <;> simp <;> omega
  · have hx : DIR_X[p.dir]? = none := List.getElem?_eq_none (by simp [DIR_X]; omega)
    rw [hx] at h
    simp at h

/-! ## Collision detection (C6) -/

theorem not_sameSlot_zero_one : ¬ SameSlot 0 1 := by
  unfold SameSlot; simp

theorem not_sameSlot_one_zero : ¬ SameSlot 1 0 := by
  unfold SameSlot; simp

theorem draw_player_vram (E : Env) (k : Nat) (g : Game) (a : Nat) :
    (draw_player E k g).vram a =
      if a = E.NTADR_A (g.players k).x (g.players k).y then (g.players k).head_attr
      else g.vram a := rfl

theorem score_step_first_only (g : Game) (h0 : g.p0.collided = true)
    (h1 : g.p1.collided = false) :
    (score_step g).p1.score = (g.p1.score + 1) % 65536 ∧
    (score_step g).p0.score = g.p0.score := by
  simp [score_step, h0, h1]

/-- C9: `make_move` ends with `move_player(&players[1]); move_player(&players[0]);`
(`move_players`), so player 2 is advanced first and player 1's check reads the
screen player 2 has already written.  If player 2 has not collided, every
active segment of player 1's trail is non-empty on the screen, and both
players' next head positions are the same cell `(cx, cy)`, empty before the
step, then the step returns, player 1 (`players[0]`) has collided and player 2
(`players[1]`) has not, and the scoring step gives player 2 the point.  The
records are within their declared bounds, the cells lie on the grid (where
`NTADR_A` is injective), and player 2's head character is neither 0 nor the
pickup marker (`init_game` sets `0xaf` and `0xad`). -/
theorem move_players_same_cell (E : Env) (fuel : Nat) (g : Game) (cx cy : Nat)
    (hinj : GridInjective E)
    (hg0 : InGrid g.p0.x g.p0.y) (hg1 : InGrid g.p1.x g.p1.y) (hgc : InGrid cx cy)
    (hw0 : WellFormed g.p0) (hw1 : WellFormed g.p1)
    (hn0 : next_head g.p0 = some (cx, cy)) (hn1 : next_head g.p1 = some (cx, cy))
    (hc1 : g.p1.collided = false)
    (hempty : g.vram (E.NTADR_A cx cy) = 0)
    (htrail : ∀ (j : Nat) (b : BodyPart), (j : Int) < g.p0.length →
      g.p0.body[j]? = some b → b.active = true → g.vram (E.NTADR_A b.x b.y) ≠ 0)
    (hattr : g.p1.head_attr ≠ 0 ∧ g.p1.head_attr ≠ g.pow.attr) :
    ∃ g', move_players E fuel g = some g' ∧
      g'.p0.collided = true ∧ g'.p1.collided = false ∧
      (score_step g').p1.score = (g.p1.score + 1) % 65536 ∧
      (score_step g').p0.score = g.p0.score := by
  -- player 2 moves into the empty cell
  have hne1 : E.NTADR_A cx cy ≠ E.NTADR_A (g.players 1).x (g.players 1).y := by
    intro e
    have := hinj _ _ _ _ hgc hg1 e
    exact next_head_ne g.p1 (cx, cy) hn1 ⟨this.1.symm, this.2.symm⟩
  obtain ⟨g2, hb1⟩ := Option.isSome_iff_exists.mp (before_check_returns E 1 g hw1)
  have hk1 := before_check_kept E 1 g g2 hb1
  have hpos1 : (g2.players 1).x = cx ∧ (g2.players 1).y = cy := by
    have := before_check_pos E 1 g g2 hb1
    rw [show g.players 1 = g.p1 from rfl, hn1] at this
    have := Option.some.inj this
    exact ⟨(congrArg Prod.fst this).symm, (congrArg Prod.snd this).symm⟩
  have hv1 : g2.vram (E.NTADR_A cx cy) = 0 := by
    rcases (before_check_vram E 1 g g2 hb1 _ hne1).1 with h | h
    · rw [h]; exact hempty
    · exact h
  have hm1 : move_player E fuel 1 g = some (draw_player E 1 g2) := by
    apply move_player_empty E fuel 1 g g2 hb1
    unfold getchar
    rw [hpos1.1, hpos1.2]; exact hv1
  -- the state between the two moves
  have m_p0 : (draw_player E 1 g2).players 0 = g.p0 := by
    rw [draw_player_players, before_check_others E 1 g g2 hb1 0 not_sameSlot_zero_one]
    rfl
  have m_head : (draw_player E 1 g2).vram (E.NTADR_A cx cy) = g.p1.head_attr := by
    rw [draw_player_vram, hpos1.1, hpos1.2, if_pos rfl]
    exact (hk1.kplayers 1).head_attr
  have m_pow : (draw_player E 1 g2).pow = g.pow := hk1.pow
  have m_p1c : ((draw_player E 1 g2).players 1).collided = false := by
    rw [draw_player_players, (hk1.kplayers 1).collided]; exact hc1
  have m_p1s : ((draw_player E 1 g2).players 1).score = g.p1.score := by
    rw [draw_player_players, (hk1.kplayers 1).score]; rfl
  generalize draw_player E 1 g2 = m at hm1 m_p0 m_head m_pow m_p1c m_p1s
  -- player 1 moves into the head of player 2
  have hne0 : E.NTADR_A cx cy ≠ E.NTADR_A (m.players 0).x (m.players 0).y := by
    rw [m_p0]
    intro e
    have := hinj _ _ _ _ hgc hg0 e
    exact next_head_ne g.p0 (cx, cy) hn0 ⟨this.1.symm, this.2.symm⟩
  obtain ⟨g3, hb0⟩ := Option.isSome_iff_exists.mp
    (before_check_returns E 0 m (by rw [m_p0]; exact hw0))
  have hk0 := before_check_kept E 0 m g3 hb0
  have hpos0 : (g3.players 0).x = cx ∧ (g3.players 0).y = cy := by
    have := before_check_pos E 0 m g3 hb0
    rw [m_p0, hn0] at this
    have := Option.some.inj this
    exact ⟨(congrArg Prod.fst this).symm, (congrArg Prod.snd this).symm⟩
  have hv0 : g3.vram (E.NTADR_A cx cy) = g.p1.head_attr := by
    rw [(before_check_vram E 0 m g3 hb0 _ hne0).2 ?_, m_head]
    intro j b hj hb hact e
    rw [m_p0] at hj hb
    exact htrail j b hj hb hact (by rw [← e]; exact hempty)
  have hm0 : move_player E fuel 0 m =
      some (draw_player E 0 (g3.setPlayer 0 { g3.players 0 with collided := true })) := by
    apply move_player_occupied E fuel 0 m g3 hb0
    · unfold getchar
      rw [hpos0.1, hpos0.2, hv0]; exact hattr.1
    · unfold getchar
      rw [hpos0.1, hpos0.2, hv0, hk0.pow, m_pow]; exact hattr.2
  have r_p1 : (draw_player E 0 (g3.setPlayer 0 { g3.players 0 with collided := true })).players 1
      = m.players 1 := by
    rw [draw_player_players, players_setPlayer_other _ 1 0 _ not_sameSlot_one_zero,
      before_check_others E 0 m g3 hb0 1 not_sameSlot_one_zero]
  have r_p0 : (draw_player E 0 (g3.setPlayer 0 { g3.players 0 with collided := true })).players 0
      = { g3.players 0 with collided := true } := by
    rw [draw_player_players, players_setPlayer_same]
  generalize draw_player E 0 (g3.setPlayer 0 { g3.players 0 with collided := true }) = r
    at hm0 r_p1 r_p0
  have c0 : r.p0.collided = true := by
    show (r.players 0).collided = true
    rw [r_p0]
  have c1 : r.p1.collided = false := by
    show (r.players 1).collided = false
    rw [r_p1]; exact m_p1c
  have s0 : r.p0.score = g.p0.score := by
    show (r.players 0).score = g.p0.score
    rw [r_p0]
    show (g3.players 0).score = g.p0.score
    rw [(hk0.kplayers 0).score, m_p0]
  have s1 : r.p1.score = g.p1.score := by
    show (r.players 1).score = g.p1.score
    rw [r_p1]; exact m_p1s
  refine ⟨r, ?_, c0, c1, ?_⟩
  · unfold move_players
    rw [hm1]
    exact hm0
  · have := score_step_first_only r c0 c1
    rw [s0, s1] at this
    exact this

theorem NTADR_A_eq (x y : Nat) (hx : x < 32) (hy : y < 27) :
    NTADR_A x y = 8192 + (32 * y + x) := by
  unfold NTADR_A
  have h1 : y <<< 5 ||| x = 32 * y + x := by
    rw [Nat.shiftLeft_eq, Nat.mul_comm]
    exact (Nat.mul_add_lt_is_or (i := 5) (b := x) (by omega) y).symm
  have h2 : (0x2000 : Nat) ||| (32 * y + x) = 8192 + (32 * y + x) := by
    have := Nat.mul_add_lt_is_or (i := 13) (b := 32 * y + x) (by omega) 1
    simpa using this.symm
  rw [h1, h2]

/-- The `neslib.h` address macro is injective on the grid. -/
theorem nes_gridInjective (rs : List Nat) : GridInjective (nes rs) := by
  intro x y x' y' h h' e
  unfold InGrid COLS ROWS at h h'
  change NTADR_A x y = NTADR_A x' y' at e
  rw [NTADR_A_eq x y h.1 h.2, NTADR_A_eq x' y' h'.1 h'.2] at e
  omega

/-- C9 at a concrete input: player 1 at `(5,5)` looking right and player 2 at
`(7,5)` looking left both enter the empty cell `(6,5)`; player 1 collides,
player 2 does not, and player 2's score goes from 0 to 1. -/
theorem move_players_same_cell_witness :
    ∃ g', move_players (nes []) 0 facing = some g' ∧
      g'.p0.collided = true ∧ g'.p1.collided = false ∧
      (score_step g').p1.score = (0 + 1) % 65536 ∧ (score_step g').p0.score = 0 :=
  move_players_same_cell (nes []) 0 facing 6 5 (nes_gridInjective [])
    (by decide) (by decide) (by decide) (by decide) (by decide) (by decide) (by decide)
    (by decide) (by decide!)
    (by
      intro j b hj hb hact
      have h2 : facing.p0.length = 2 := by decide
      rw [h2] at hj
      have hj' : j = 0 ∨ j = 1 := by omega
      rcases hj' with e | e
      · subst e
        have h0 : facing.p0.body[0]? = some { x := 4, y := 5, active := true } := by decide
        rw [h0] at hb
        rw [← Option.some.inj hb]
        decide!
      · subst e
        have h1 : facing.p0.body[1]? = some { x := 0, y := 0, active := false } := by decide
        rw [h1] at hb
        rw [← Option.some.inj hb] at hact
        exact absurd hact (by decide))
    (by decide)

/-! ## The length bound (C4) -/

/-- C4 (what the code does): `move_player` increments `length` on every pickup
without a bound.  From power-on, in attract mode with no button pressed, the
first round with the random bytes `feast` runs 44 movement steps without
leaving the loop of `play_round` (no collision, `gameover` clear), and then
`players[0].length` is 46, above the 45 entries of `body`. -/
theorem length_exceeds_capacity :
    ((round_start (nes feast) 1 (game_start { boot (fun _ => 0) with attract := 1 })).bind
        (round_steps (nes feast) 1 44)).map
      (fun g => (g.p0.length, g.p0.collided, g.p1.collided, g.gameover)) =
      some (46, false, false, 0) ∧
    ((round_start (nes feast) 1 (game_start { boot (fun _ => 0) with attract := 1 })).bind
        (play_round_loop (nes feast) 1 44)).isSome = false := by
  constructor
  · decide!
  · decide!

/-! ## Leaving attract mode (C10) -/

/-- The start buttons: in attract mode button A sets `gameover` and
`num_players = 1`, button B (without A) sets `gameover` and `num_players = 2`,
and nothing changes otherwise. -/
theorem start_buttons_spec (E : Env) (pad : Nat) (g : Game) :
    (g.attract ≠ 0 → pad &&& E.PAD_A ≠ 0 →
      (start_buttons E pad g).gameover = 1 ∧ (start_buttons E pad g).num_players = 1) ∧
    (g.attract ≠ 0 → pad &&& E.PAD_A = 0 → pad &&& E.PAD_B ≠ 0 →
      (start_buttons E pad g).gameover = 1 ∧ (start_buttons E pad g).num_players = 2) ∧
    ((g.attract = 0 ∨ (pad &&& E.PAD_A = 0 ∧ pad &&& E.PAD_B = 0)) →
      start_buttons E pad g = g) := by
  unfold start_buttons
  refine ⟨fun ha hp => ?_, fun ha hp hb => ?_, fun h => ?_⟩
  · rw [if_pos ⟨ha, hp⟩]; exact ⟨rfl, rfl⟩
  · rw [if_neg (fun h => h.2 hp), if_pos ⟨ha, hb⟩]; exact ⟨rfl, rfl⟩
  · rcases h with h | h
    · rw [if_neg (fun c => c.1 h), if_neg (fun c => c.1 h)]
    · rw [if_neg (fun c => c.2 h.1), if_neg (fun c => c.2 h.2)]

/-- C10 (what the code does): from power-on, in attract mode, with no button
pressed in any poll and the random bytes `short_round`, the demo plays seven
rounds that player 2 wins; the seventh `play_round` calls `declare_winner(1)`,
which sets `gameover`, and the attract-mode `play_game` returns.  `main` then
clears `attract` and calls `play_game`, which starts a game with a human
player 1 and `num_players` still 0. -/
theorem attract_demo_ends :
    (∀ n c, (nes short_round).pad_stream n c = 0) ∧
    (main_attract (nes short_round) 8 (boot (fun _ => 0))).map
      (fun g => (g.gameover, g.winner_calls, g.p0.score, g.p1.score, g.num_players)) =
      some (1, [1], 0, 7, 0) ∧
    ((main_attract (nes short_round) 8 (boot (fun _ => 0))).map
      (fun g => ((game_start { g with attract := 0 }).attract,
        (game_start { g with attract := 0 }).p0.human,
        (game_start { g with attract := 0 }).num_players))) = some (0, true, 0) := by
  refine ⟨fun _ _ => rfl, ?_, ?_⟩
  · decide!
  · decide!

/-! ## Where the pickup is placed (C11) -/

theorem rand_pos_drawn (E : Env) (g : Game) : Drawn (rand_pos E g).pow := by
  show 2 ≤ (E.rand_stream g.rand_calls % 256) % (29 - 2 + 1) + 2 ∧
    (E.rand_stream g.rand_calls % 256) % (29 - 2 + 1) + 2 ≤ 29 ∧
    3 ≤ (E.rand_stream (g.rand_calls + 1) % 256) % (23 - 3 + 1) + 3 ∧
    (E.rand_stream (g.rand_calls + 1) % 256) % (23 - 3 + 1) + 3 ≤ 23
  omega

theorem rand_place_loop_spec (E : Env) (fuel : Nat) :
    ∀ g g' : Game, Drawn g.pow → rand_place_loop E fuel g = some g' →
      Drawn g'.pow ∧ getchar E g' g'.pow.x g'.pow.y = 0 := by
  induction fuel with
  | zero => intro g g' _ h; simp [rand_place_loop] at h
  | succ n ih =>
    intro g g' hd h
    unfold rand_place_loop at h
    split_ifs at h with h1
    · exact ih _ _ (rand_pos_drawn E g) h
    · injection h with h
      subst h
      exact ⟨hd, not_not.mp h1⟩

/-- C11: for every random byte stream and every screen on which the playfield
border is non-empty, whenever `rand_place` returns, the pickup position is a
cell that reads 0 (EMPTY) on the screen (which `rand_place` has not changed)
and lies strictly inside the border: `2 <= pow.x <= 29` and
`4 <= pow.y <= 25` (in fact `pow.y <= 23`). -/
theorem rand_place_inside (E : Env) (fuel : Nat) (g g' : Game)
    (hb : BorderDrawn E g) (h : rand_place E fuel g = some g') :
    getchar E g' g'.pow.x g'.pow.y = 0 ∧ g'.vram = g.vram ∧
    (2 ≤ g'.pow.x ∧ g'.pow.x ≤ 29) ∧ (4 ≤ g'.pow.y ∧ g'.pow.y ≤ 25) ∧ g'.pow.y ≤ 23 := by
  have hk := rand_place_placeKept E fuel g g' h
  unfold rand_place at h
  obtain ⟨hd, h0⟩ := rand_place_loop_spec E fuel _ g' (rand_pos_drawn E _) h
  unfold Drawn at hd
  refine ⟨h0, hk.vram, ⟨hd.1, hd.2.1⟩, ⟨?_, by omega⟩, hd.2.2.2⟩
  by_contra hlt
  have hy : g'.pow.y = 3 := by omega
  have := hb g'.pow.x 3 (by omega) (by omega) (by omega) (by omega) (Or.inr (Or.inr (Or.inl rfl)))
  apply this
  unfold getchar at h0 ⊢
  rw [← hk.vram, ← hy]
  exact h0

theorem borderDrawn_of_check (E : Env) (g : Game)
    (h : ∀ x, x < 31 → ∀ y, y < 27 →
      (1 ≤ x ∧ 3 ≤ y ∧ (x = 1 ∨ x = 30 ∨ y = 3 ∨ y = 26)) → getchar E g x y ≠ 0) :
    BorderDrawn E g := by
  intro x y h1 h2 h3 h4 hc
  exact h x (by omega) y (by omega) ⟨h1, h3, hc⟩

/-- C11 at a concrete input: on the drawn playfield with the random bytes
0, 8, 7 `rand_place` returns with the pickup at `(10,10)`, an empty cell. -/
theorem rand_place_inside_witness :
    (rand_place (nes [0, 8, 7]) 1 (field 5)).map (fun g => (g.pow.x, g.pow.y)) = some (10, 10) ∧
    (∀ g', rand_place (nes [0, 8, 7]) 1 (field 5) = some g' →
      getchar (nes [0, 8, 7]) g' g'.pow.x g'.pow.y = 0 ∧ 4 ≤ g'.pow.y) :=
  ⟨by decide!, fun g' h =>
    ⟨(rand_place_inside (nes [0, 8, 7]) 1 (field 5) g'
        (borderDrawn_of_check _ _ (by decide!)) h).1,
     (rand_place_inside (nes [0, 8, 7]) 1 (field 5) g'
        (borderDrawn_of_check _ _ (by decide!)) h).2.2.2.1.1⟩⟩

/-! ## The pickup's cell (C12) -/

/-- C12 (what the code does): `rand_place` may put the pickup on the start cell
of a player, which is empty until the first move draws the head.  Here the
pickup is drawn at `(5,5)` (byte `0xad`); the first `move_player` of player 1
draws the head over it (`0xae`), and in the second one the tail erase of
`update_body` clears the cell: the pickup's cell reads 0 while `pow` is still
`(5,5)`.  The same holds after two movement steps of the demo itself. -/
theorem pickup_cell_cleared :
    under_head.map (pickup_cell (nes [])) = some (5, 5, 0xad) ∧
    (under_head.bind (move_player (nes []) 1 0)).map (pickup_cell (nes [])) =
      some (5, 5, 0xae) ∧
    ((under_head.bind (move_player (nes []) 1 0)).bind
        (fun g => update_body (nes []) 0 (draw_player (nes []) 0 g))).map
      (pickup_cell (nes [])) = some (5, 5, 0) ∧
    ((under_head.bind (move_player (nes []) 1 0)).bind (move_player (nes []) 1 0)).map
      (pickup_cell (nes [])) = some (5, 5, 0) ∧
    (under_head.bind (round_steps (nes [0, 3, 2]) 1 2)).map (pickup_cell (nes [])) =
      some (5, 5, 0) := by
  refine ⟨by decide!, by decide!, by decide!, by decide!, by decide!⟩

/-! ## The round reset and the scores (C13) -/

theorem ScoresKept.srefl (g : Game) : ScoresKept g g := ⟨rfl, rfl⟩

theorem ScoresKept.strans {a b c : Game} (h1 : ScoresKept a b) (h2 : ScoresKept b c) :
    ScoresKept a c :=
  ⟨h2.1.trans h1.1, h2.2.trans h1.2⟩

theorem OnlyVram.vscores {g g' : Game} (h : OnlyVram g g') : ScoresKept g g' :=
  ⟨h.kept.p0.score, h.kept.p1.score⟩

theorem Kept.kscores {g g' : Game} (h : Kept g g') : ScoresKept g g' :=
  ⟨h.p0.score, h.p1.score⟩

theorem PlaceKept.pscores {g g' : Game} (h : PlaceKept g g') : ScoresKept g g' := by
  unfold ScoresKept
  rw [h.p0, h.p1]
  exact ⟨rfl, rfl⟩

theorem setPlayer_scores (g : Game) (k : Nat) (p : Player)
    (h : p.score = (g.players k).score) : ScoresKept g (g.setPlayer k p) := by
  cases k
  · exact ⟨h, rfl⟩
  · exact ⟨rfl, h⟩

theorem human_control_scores (E : Env) (k : Nat) (g : Game) :
    ScoresKept g (human_control E k g) := by
  have hs : ∀ (pad : Nat) (g1 : Game), ScoresKept g1 (steer E k pad g1) := by
    intro pad g1
    unfold steer
    split_ifs
    · exact ScoresKept.srefl g1
    · exact setPlayer_scores g1 k _ rfl
    · exact ScoresKept.srefl g1
  have hb : ∀ (pad : Nat) (g1 : Game), ScoresKept g1 (start_buttons E pad g1) := by
    intro pad g1
    unfold start_buttons
    split_ifs <;> exact ⟨rfl, rfl⟩
  have hp : ∀ c, ScoresKept g (pad_poll E c g).2 := fun c => ⟨rfl, rfl⟩
  unfold human_control
  split_ifs
  · exact ((hp 1).strans (hb _ _)).strans (hs _ _)
  · exact ((hp 0).strans (hb _ _)).strans (hs _ _)

theorem poll_frames_scores (E : Env) (n : Nat) :
    ∀ g : Game, ScoresKept g (poll_frames E n g) := by
  induction n with
  | zero => intro g; exact ScoresKept.srefl g
  | succ n ih =>
    intro g
    unfold poll_frames
    exact ((human_control_scores E 0 g).strans (human_control_scores E 1 _)).strans (ih _)

theorem ai_try_dir_scores (E : Env) (k : Nat) (dir : Int) (shift : Nat) (g : Game) :
    ScoresKept g (ai_try_dir E k dir shift g).2 := by
  unfold ai_try_dir
  simp only []
  split_ifs
  · exact setPlayer_scores g k _ rfl
  · exact setPlayer_scores g k _ rfl
  · exact ScoresKept.srefl g

theorem ai_candidate_scores (E : Env) (k : Nat) (g : Game) :
    ScoresKept g (ai_candidate E k g).2 := by
  unfold ai_candidate
  simp only []
  split_ifs <;> exact ⟨rfl, rfl⟩

theorem ai_control_scores (E : Env) (k : Nat) (g : Game) :
    ScoresKept g (ai_control E k g) := by
  unfold ai_control
  split_ifs with h
  · exact ScoresKept.srefl g
  · simp only []
    have h1 := ai_candidate_scores E k g
    have h2 := ai_try_dir_scores E k (ai_candidate E k g).1 0 (ai_candidate E k g).2
    split_ifs
    · exact (h1.strans h2).strans
        ((ai_try_dir_scores E k _ 0 _).strans (ai_try_dir_scores E k _ 0 _))
    · exact (h1.strans h2).strans ⟨rfl, rfl⟩

theorem set_pacing_scores (g : Game) (v : Nat) :
    ScoresKept g { g with frames_per_move := v } := ⟨rfl, rfl⟩

theorem eat_pickup_scores (E : Env) (fuel k : Nat) (g g' : Game)
    (h : eat_pickup E fuel k g = some g') : ScoresKept g g' := by
  unfold eat_pickup at h
  cases hr : rand_place E fuel g with
  | none => simp [hr] at h
  | some g1 =>
    simp only [hr] at h
    have h1 : ScoresKept g (draw_powop E g1) :=
      (rand_place_placeKept E fuel g g1 hr).pscores.strans (poke_onlyVram g1 _ _).vscores
    split_ifs at h
    · injection h with h
      subst h
      apply h1.strans
      refine ScoresKept.strans ?_ (set_pacing_scores _ _)
      exact setPlayer_scores _ k _ rfl
    · injection h with h
      subst h
      exact h1.strans (setPlayer_scores _ k _ rfl)

theorem check_head_scores (E : Env) (fuel k : Nat) (g g' : Game)
    (h : check_head E fuel k g = some g') : ScoresKept g g' := by
  unfold check_head at h
  split_ifs at h
  · exact eat_pickup_scores E fuel k g g' h
  · injection h with h
    subst h
    exact setPlayer_scores g k _ rfl
  · injection h with h
    subst h
    exact ScoresKept.srefl g

theorem move_player_scores (E : Env) (fuel k : Nat) (g g' : Game)
    (h : move_player E fuel k g = some g') : ScoresKept g g' := by
  obtain ⟨g2, g3, hb, hc, hd⟩ := move_player_some E fuel k g g' h
  rw [hd]
  exact ((before_check_kept E k g g2 hb).kscores.strans
    (check_head_scores E fuel k g2 g3 hc)).strans (cputcxy_onlyVram E _ _ _ g3).vscores

theorem round_step_scores (E : Env) (fuel : Nat) (g g' : Game)
    (h : round_step E fuel g = some g') : ScoresKept g g' := by
  unfold round_step make_move move_players at h
  have h0 : ScoresKept g (if g.attract ≠ 0 then { g with seed := (g.seed + 1) % 256 } else g) := by
    split_ifs <;> exact ⟨rfl, rfl⟩
  generalize (if g.attract ≠ 0 then { g with seed := (g.seed + 1) % 256 } else g) = ga at h h0
  simp only [] at h
  have h1 := poll_frames_scores E ga.frames_per_move ga
  have h2 := ai_control_scores E 0 (poll_frames E ga.frames_per_move ga)
  have h3 := ai_control_scores E 1 (ai_control E 0 (poll_frames E ga.frames_per_move ga))
  generalize ai_control E 1 (ai_control E 0 (poll_frames E ga.frames_per_move ga)) = gb at h h3
  cases hm : move_player E fuel 1 gb with
  | none => simp [hm] at h
  | some gc =>
    simp only [hm] at h
    exact (((h0.strans h1).strans h2).strans h3).strans
      ((move_player_scores E fuel 1 gb gc hm).strans (move_player_scores E fuel 0 gc g' h))

theorem play_round_loop_scores (E : Env) (fuel n : Nat) :
    ∀ (g g' : Game) (b : Bool), play_round_loop E fuel n g = some (b, g') →
      ScoresKept g g' := by
  induction n with
  | zero => intro g g' b h; simp [play_round_loop] at h
  | succ n ih =>
    intro g g' b h
    unfold play_round_loop at h
    cases hs : round_step E fuel g with
    | none => simp [hs] at h
    | some g1 =>
      simp only [hs] at h
      have h1 := round_step_scores E fuel g g1 hs
      split_ifs at h
      · injection h with h
        rw [← (Prod.mk.inj h).2]; exact h1
      · injection h with h
        rw [← (Prod.mk.inj h).2]; exact h1
      · exact h1.strans (ih _ _ _ h)

theorem round_start_scores (E : Env) (fuel : Nat) (g g' : Game)
    (h : round_start E fuel g = some g') : ScoresKept g g' := by
  unfold round_start at h
  simp only [] at h
  have h1 : ScoresKept g (draw_playfield E (clrscr (setup_attrib_table g))) := by
    have a1 : OnlyVram g (setup_attrib_table g) :=
      foldl_onlyVram _ (fun g _ => poke_onlyVram g _ _) _ g
    have a2 : ScoresKept (clrscr (setup_attrib_table g))
        (draw_playfield E (clrscr (setup_attrib_table g))) := by
      generalize clrscr (setup_attrib_table g) = gc
      have hbx : ∀ (ys y2s x2s x1s : Nat) (n : Nat) (v : Nat) (gg : Game),
          OnlyVram gg (draw_box_cols E ys y2s x2s BOX_CHARS n v gg) ∧
          OnlyVram gg (draw_box_rows E x1s x2s y2s BOX_CHARS n v gg) := by
        intro ys y2s x2s x1s n
        induction n with
        | zero => intro v gg; exact ⟨OnlyVram.vrefl gg, OnlyVram.vrefl gg⟩
        | succ n ih =>
          intro v gg
          constructor
          · unfold draw_box_cols
            split_ifs
            · exact ((cputcxy_onlyVram E _ _ _ gg).vtrans (cputcxy_onlyVram E _ _ _ _)).vtrans
                (ih _ _).1
            · exact OnlyVram.vrefl gg
          · unfold draw_box_rows
            split_ifs
            · exact ((cputcxy_onlyVram E _ _ _ gg).vtrans (cputcxy_onlyVram E _ _ _ _)).vtrans
                (ih _ _).2
            · exact OnlyVram.vrefl gg
      have hbox : OnlyVram gc (draw_box E 1 3 (COLS - 2) (ROWS - 1) BOX_CHARS gc) := by
        unfold draw_box
        exact ((((((cputcxy_onlyVram E _ _ _ gc).vtrans (cputcxy_onlyVram E _ _ _ _)).vtrans
          (cputcxy_onlyVram E _ _ _ _)).vtrans (cputcxy_onlyVram E _ _ _ _)).vtrans
          (hbx _ _ _ 0 _ _ _).1).vtrans (hbx 0 _ _ _ _ _ _).2)
      unfold draw_playfield
      simp only []
      split_ifs
      · exact (hbox.vtrans ((cputsxy_onlyVram E _ _ _ _).vtrans
          (cputsxy_onlyVram E _ _ _ _))).vscores
      · exact (hbox.vtrans ((((cputcxy_onlyVram E _ _ _ _).vtrans
          (cputcxy_onlyVram E _ _ _ _)).vtrans (cputsxy_onlyVram E _ _ _ _)).vtrans
          (cputsxy_onlyVram E _ _ _ _))).vscores
    exact (a1.vtrans (clrscr_onlyVram _)).vscores.strans a2
  have h2 : ∀ gg : Game, ScoresKept gg (reset_players gg) := fun gg => ⟨rfl, rfl⟩
  cases hr : rand_place E fuel (reset_players (draw_playfield E (clrscr (setup_attrib_table g)))) with
  | none => simp [hr] at h
  | some g1 =>
    simp only [hr] at h
    injection h with h
    subst h
    exact ((h1.strans (h2 _)).strans (rand_place_placeKept E fuel _ g1 hr).pscores).strans
      (poke_onlyVram g1 _ _).vscores

theorem flash_colliders_scores (E : Env) (g : Game) : ScoresKept g (flash_colliders E g) := by
  unfold flash_colliders
  generalize List.range 56 = l
  induction l generalizing g with
  | nil => exact ScoresKept.srefl g
  | cons i l ih =>
    refine ScoresKept.strans ?_ (ih (flash_step E i g))
    unfold flash_step
    simp only []
    refine ScoresKept.strans ?_
      (((cputcxy_onlyVram E _ _ _ _).vtrans (cputcxy_onlyVram E _ _ _ _)).vscores)
    split_ifs <;> exact ⟨rfl, rfl⟩

theorem declare_winner_scores (E : Env) (w : Nat) (g : Game) :
    ScoresKept g (declare_winner E w g) := by
  have h1 := clrscr_onlyVram g
  have h2 := cputsxy_onlyVram E 12 10 [87, 73, 78, 78, 69, 82, 58] (clrscr g)
  have h3 := cputsxy_onlyVram E 12 13 [80, 76, 65, 89, 69, 82, 32] _ |> (h1.vtrans h2).vtrans
  have h4 := (h3.vtrans (cputcxy_onlyVram E (12 + 7) 13 ((49 + w) % 256) _)).vscores
  unfold ScoresKept at h4 ⊢
  show (cputcxy E (12 + 7) 13 ((49 + w) % 256) _).p0.score = _ ∧
    (cputcxy E (12 + 7) 13 ((49 + w) % 256) _).p1.score = _
  exact h4

theorem winner_check_scores (E : Env) (g : Game) : ScoresKept g (winner_check E g) := by
  unfold winner_check
  split_ifs
  · exact declare_winner_scores E 0 g
  · exact declare_winner_scores E 1 g
  · exact ScoresKept.srefl g
  · exact ScoresKept.srefl g

theorem score_step_scores (g : Game) :
    ((score_step g).p0.score = g.p0.score ∨
      (score_step g).p0.score = (g.p0.score + 1) % 65536) ∧
    ((score_step g).p1.score = g.p1.score ∨
      (score_step g).p1.score = (g.p1.score + 1) % 65536) := by
  unfold score_step
  cases h0 : g.p0.collided <;> cases h1 : g.p1.collided <;> simp [h0, h1]

theorem play_round_scores (E : Env) (fuel : Nat) (g g' : Game)
    (h : play_round E fuel g = some g') :
    (g'.p0.score = g.p0.score ∨ g'.p0.score = (g.p0.score + 1) % 65536) ∧
    (g'.p1.score = g.p1.score ∨ g'.p1.score = (g.p1.score + 1) % 65536) := by
  unfold play_round at h
  cases hs : round_start E fuel g with
  | none => simp [hs] at h
  | some g1 =>
    simp only [hs] at h
    have h1 := round_start_scores E fuel g g1 hs
    cases hl : play_round_loop E fuel fuel g1 with
    | none => simp [hl] at h
    | some r =>
      obtain ⟨b, g2⟩ := r
      have h2 := h1.strans (play_round_loop_scores E fuel fuel g1 g2 b hl)
      cases b with
      | true =>
        simp only [hl] at h
        rw [← Option.some.inj h, h2.1, h2.2]
        exact ⟨Or.inl rfl, Or.inl rfl⟩
      | false =>
        simp only [hl] at h
        rw [← Option.some.inj h]
        unfold round_end
        have h3 := h2.strans (flash_colliders_scores E g2)
        have h4 := score_step_scores (flash_colliders E g2)
        have h5 := winner_check_scores E (score_step (flash_colliders E g2))
        rw [h5.1, h5.2, ← h3.1, ← h3.2]
        exact h4

/-- C13: for every prior state `reset_players` puts player 1 at `(5,5)` facing
right and player 2 at `(26,21)` facing left, clears both `collided` flags, sets
both lengths to 2, sets the byte `frames_per_move` to
`4 + 2*num_players*num_players` (mod 256; exactly that for `num_players <= 11`,
so for the values 0, 1, 2 the game uses) and leaves both scores unchanged.
`init_game` sets both scores to 0, and a `play_round` never does: it leaves
each score as it was or adds one to it. -/
theorem reset_players_spec (g : Game) :
    ((reset_players g).p0.x = 5 ∧ (reset_players g).p0.y = 5 ∧
      (reset_players g).p0.dir = D_RIGHT) ∧
    ((reset_players g).p1.x = 26 ∧ (reset_players g).p1.y = 21 ∧
      (reset_players g).p1.dir = D_LEFT) ∧
    ((reset_players g).p0.collided = false ∧ (reset_players g).p1.collided = false) ∧
    ((reset_players g).p0.length = 2 ∧ (reset_players g).p1.length = 2) ∧
    (reset_players g).frames_per_move = (4 + 2 * g.num_players * g.num_players) % 256 ∧
    (g.num_players ≤ 11 →
      (reset_players g).frames_per_move = 4 + 2 * g.num_players * g.num_players) ∧
    ((reset_players g).p0.score = g.p0.score ∧ (reset_players g).p1.score = g.p1.score) ∧
    ((init_game g).p0.score = 0 ∧ (init_game g).p1.score = 0) ∧
    (∀ (E : Env) (fuel : Nat) (g' : Game), play_round E fuel g = some g' →
      (g'.p0.score = g.p0.score ∨ g'.p0.score = (g.p0.score + 1) % 65536) ∧
      (g'.p1.score = g.p1.score ∨ g'.p1.score = (g.p1.score + 1) % 65536)) := by
  refine ⟨⟨rfl, rfl, rfl⟩, ⟨rfl, rfl, rfl⟩, ⟨rfl, rfl⟩, ⟨rfl, rfl⟩, rfl, ?_, ⟨rfl, rfl⟩,
    ⟨rfl, rfl⟩, fun E fuel g' h => play_round_scores E fuel g g' h⟩
  intro hn
  show (START_SPEED + 2 * g.num_players * g.num_players) % 256 = _
  unfold START_SPEED
  have : g.num_players * g.num_players ≤ 11 * 11 := Nat.mul_le_mul hn hn
  rw [Nat.mul_assoc]
  omega

/-- C13 at a concrete input: after a one-player game was chosen
(`num_players = 1`) the reset sets `frames_per_move` to 6 and keeps the scores
3 and 5. -/
theorem reset_players_spec_witness :
    (reset_players { ended true false 3 5 with num_players := 1 }).frames_per_move = 4 + 2 * 1 * 1 ∧
    (reset_players { ended true false 3 5 with num_players := 1 }).p0.score = 3 ∧
    (reset_players { ended true false 3 5 with num_players := 1 }).p1.score = 5 :=
  ⟨(reset_players_spec { ended true false 3 5 with num_players := 1 }).2.2.2.2.2.1 (by decide),
   (reset_players_spec { ended true false 3 5 with num_players := 1 }).2.2.2.2.2.2.1.1,
   (reset_players_spec { ended true false 3 5 with num_players := 1 }).2.2.2.2.2.2.1.2⟩

/-! ## The shift of the trail (C14, C15) -/

theorem update_body_loop_step (E : Env) (n k i tx ty : Nat) (g : Game) (b : BodyPart)
    (h1 : (i : Int) < (g.players k).length) (h2 : i < 45)
    (hb : (g.players k).body[i]? = some b) :
    update_body_loop E (n + 1) k i tx ty g =
      if b.active then
        update_body_loop E n k (i + 1) b.x b.y (g.setPlayer k
          { g.players k with body := (g.players k).body.set i { b with x := tx, y := ty } })
      else
        some (cputcxy E tx ty 0 (g.setPlayer k
          { g.players k with body := (g.players k).body.set i { b with x := tx, y := ty } })) := by
  rw [update_body_loop, if_pos h1, if_pos h2, hb]

theorem update_body_loop_exit (E : Env) (n k i tx ty : Nat) (g : Game)
    (h1 : ¬ (i : Int) < (g.players k).length) :
    update_body_loop E (n + 1) k i tx ty g = some g := by
  rw [update_body_loop, if_neg h1]

/-- The loop of `update_body`, entered at index `i` with the carried position
`(tx, ty)`, when `K` is the index at which it stops: the segments from `i` to
`K` take the carried position and the positions of their predecessors, all
other segments stay, and the cell of the position `(sx, sy)` shifted into
segment `K` is cleared when that segment is inactive. -/
theorem update_body_loop_shift (E : Env) (k : Nat) :
    ∀ (m n i tx ty : Nat) (g : Game) (K : Nat) (bK : BodyPart) (sx sy : Nat),
      K = i + m → m + 2 ≤ n →
      (g.players k).body.length = 45 → K < 45 → (K : Int) < (g.players k).length →
      (g.players k).body[K]? = some bK →
      (∀ (j : Nat) (b : BodyPart), i ≤ j → j < K → (g.players k).body[j]? = some b →
        b.active = true) →
      (bK.active = false ∨ (K : Int) + 1 = (g.players k).length) →
      ((K = i ∧ sx = tx ∧ sy = ty) ∨
        (i < K ∧ ∃ c : BodyPart, (g.players k).body[K - 1]? = some c ∧ c.x = sx ∧ c.y = sy)) →
      ∃ g', update_body_loop E n k i tx ty g = some g' ∧
        (g'.players k).body.length = 45 ∧
        (∀ b : BodyPart, (g.players k).body[i]? = some b →
          (g'.players k).body[i]? = some { b with x := tx, y := ty }) ∧
        (∀ (j : Nat) (b c : BodyPart), i < j → j ≤ K → (g.players k).body[j]? = some b →
          (g.players k).body[j - 1]? = some c →
          (g'.players k).body[j]? = some { b with x := c.x, y := c.y }) ∧
        (∀ j : Nat, (j < i ∨ K < j) → (g'.players k).body[j]? = (g.players k).body[j]?) ∧
        (∀ a, g'.vram a = if bK.active = false ∧ a = E.NTADR_A sx sy then 0 else g.vram a) := by
  intro m
  induction m with
  | zero =>
    intro n i tx ty g K bK sx sy hK hn hlen hK45 hKl hbK hact hstop hsrc
    have hKi : K = i := by omega
    subst hKi
    obtain ⟨n1, rfl⟩ : ∃ n1, n = n1 + 1 := ⟨n - 1, by omega⟩
    rw [update_body_loop_step E n1 k K tx ty g bK hKl hK45 hbK]
    have hs : sx = tx ∧ sy = ty := by
      rcases hsrc with h | h
      · exact h.2
      · omega
    have hset : ((g.setPlayer k { g.players k with
        body := (g.players k).body.set K { bK with x := tx, y := ty } }).players k).body =
        (g.players k).body.set K { bK with x := tx, y := ty } := by
      rw [players_setPlayer_same]
    have hlt : K < (g.players k).body.length := by omega
    have common : ∀ g' : Game, (g'.players k).body =
        (g.players k).body.set K { bK with x := tx, y := ty } →
        (g'.players k).body.length = 45 ∧
        (∀ b : BodyPart, (g.players k).body[K]? = some b →
          (g'.players k).body[K]? = some { b with x := tx, y := ty }) ∧
        (∀ (j : Nat) (b c : BodyPart), K < j → j ≤ K → (g.players k).body[j]? = some b →
          (g.players k).body[j - 1]? = some c →
          (g'.players k).body[j]? = some { b with x := c.x, y := c.y }) ∧
        (∀ j : Nat, (j < K ∨ K < j) → (g'.players k).body[j]? = (g.players k).body[j]?) := by
      intro g' hg'
      rw [hg']
      refine ⟨by rw [List.length_set]; exact hlen, ?_, ?_, ?_⟩
      · intro b hb
        rw [hbK] at hb
        rw [← Option.some.inj hb, List.getElem?_set_self hlt]
      · intro j b c h1 h2; omega
      · intro j hj
        exact List.getElem?_set_ne (by omega)
    by_cases ha : bK.active = true
    · rw [if_pos ha]
      obtain ⟨n2, rfl⟩ : ∃ n2, n1 = n2 + 1 := ⟨n1 - 1, by omega⟩
      have hlen' : (K : Int) + 1 = (g.players k).length := by
        rcases hstop with h | h
        · rw [ha] at h; exact absurd h (by decide)
        · exact h
      rw [update_body_loop_exit]
      · refine ⟨_, rfl, (common _ hset).1, (common _ hset).2.1, (common _ hset).2.2.1,
          (common _ hset).2.2.2, ?_⟩
        intro a
        rw [setPlayer_vram, if_neg]
        rintro ⟨h, _⟩
        rw [ha] at h; exact absurd h (by decide)
      · rw [players_setPlayer_same]
        show ¬ ((K + 1 : Nat) : Int) < (g.players k).length
        push_cast
        omega
    · rw [if_neg ha]
      have hf : bK.active = false := by
        cases h : bK.active
        · rfl
        · exact absurd h ha
      have hbody : ((cputcxy E tx ty 0 (g.setPlayer k { g.players k with
          body := (g.players k).body.set K { bK with x := tx, y := ty } })).players k).body =
          (g.players k).body.set K { bK with x := tx, y := ty } := by
        rw [(cputcxy_onlyVram E tx ty 0 _).players_eq, players_setPlayer_same]
      refine ⟨_, rfl, (common _ hbody).1, (common _ hbody).2.1, (common _ hbody).2.2.1,
        (common _ hbody).2.2.2, ?_⟩
      intro a
      show (if a = E.NTADR_A tx ty then 0 else (g.setPlayer k _).vram a) = _
      rw [setPlayer_vram, hs.1, hs.2]
      by_cases hx : a = E.NTADR_A tx ty
      · rw [if_pos hx, if_pos ⟨hf, hx⟩]
      · rw [if_neg hx, if_neg (fun h => hx h.2)]
  | succ m ih =>
    intro n i tx ty g K bK sx sy hK hn hlen hK45 hKl hbK hact hstop hsrc
    obtain ⟨n1, rfl⟩ : ∃ n1, n = n1 + 1 := ⟨n - 1, by omega⟩
    have hi45 : i < 45 := by omega
    have hlt : i < (g.players k).body.length := by omega
    obtain ⟨b, hb⟩ : ∃ b, (g.players k).body[i]? = some b :=
      ⟨_, List.getElem?_eq_getElem hlt⟩
    have hba : b.active = true := hact i b (le_refl i) (by omega) hb
    have hil : (i : Int) < (g.players k).length := by omega
    rw [update_body_loop_step E n1 k i tx ty g b hil hi45 hb, if_pos hba]
    have hset : ((g.setPlayer k { g.players k with
        body := (g.players k).body.set i { b with x := tx, y := ty } }).players k).body =
        (g.players k).body.set i { b with x := tx, y := ty } := by
      rw [players_setPlayer_same]
    have hlen1 : ((g.setPlayer k { g.players k with
        body := (g.players k).body.set i { b with x := tx, y := ty } }).players k).length =
        (g.players k).length := by
      rw [players_setPlayer_same]
    have hne : ∀ j, j ≠ i → ((g.players k).body.set i { b with x := tx, y := ty })[j]? =
        (g.players k).body[j]? := fun j hj => List.getElem?_set_ne (Ne.symm hj)
    obtain ⟨g', hrun, r1, r2, r3, r4, r5⟩ :=
      ih n1 (i + 1) b.x b.y (g.setPlayer k { g.players k with
        body := (g.players k).body.set i { b with x := tx, y := ty } }) K bK sx sy
        (by omega) (by omega)
        (by rw [hset, List.length_set]; exact hlen) hK45
        (by rw [hlen1]; exact hKl)
        (by rw [hset, hne K (by omega)]; exact hbK)
        (by
          intro j bj h1 h2 hbj
          rw [hset, hne j (by omega)] at hbj
          exact hact j bj (by omega) h2 hbj)
        (by rw [hlen1]; exact hstop)
        (by
          rcases hsrc with h | ⟨h1, c, hc, hx, hy⟩
          · omega
          · by_cases hKi : K = i + 1
            · left
              have : K - 1 = i := by omega
              rw [this, hb] at hc
              have hcb := Option.some.inj hc
              rw [← hcb] at hx hy
              exact ⟨hKi, hx.symm, hy.symm⟩
            · right
              refine ⟨by omega, c, ?_, hx, hy⟩
              rw [hset, hne (K - 1) (by omega)]
              exact hc)
    rw [hset] at r2 r3 r4
    refine ⟨g', hrun, r1, ?_, ?_, ?_, ?_⟩
    · intro b' hb'
      rw [hb] at hb'
      rw [← Option.some.inj hb', r4 i (Or.inl (by omega)), List.getElem?_set_self hlt]
    · intro j bj c h1 h2 hbj hc
      by_cases hj : j = i + 1
      · subst hj
        have hci : (g.players k).body[i]? = some c := by
          have : i + 1 - 1 = i := by omega
          rw [this] at hc; exact hc
        rw [hb] at hci
        rw [← Option.some.inj hci]
        exact r2 bj (by rw [hne (i + 1) (by omega)]; exact hbj)
      · exact r3 j bj c (by omega) h2 (by rw [hne j (by omega)]; exact hbj)
          (by rw [hne (j - 1) (by omega)]; exact hc)
    · intro j hj
      rw [r4 j (by omega), hne j (by omega)]
    · intro a
      rw [r5 a, setPlayer_vram]

theorem isActive_set (body : List BodyPart) (i j : Nat) (b : BodyPart) (x y : Nat)
    (hb : body[i]? = some b) :
    isActive (body.set i { b with x := x, y := y }) j = isActive body j := by
  unfold isActive
  by_cases h : i = j
  · subst h
    have hlt : i < body.length := by
      rcases List.getElem?_eq_some.mp hb with ⟨h, _⟩
      exact h
    rw [List.getElem?_set_self hlt, hb]
  · rw [List.getElem?_set_ne h]

/-- The loop of `update_body` changes no `active` flag and not the size of
`body`. -/
theorem update_body_loop_flags (E : Env) (n k : Nat) :
    ∀ (i tx ty : Nat) (g g' : Game), update_body_loop E n k i tx ty g = some g' →
      (g'.players k).body.length = (g.players k).body.length ∧
      ∀ j, isActive (g'.players k).body j = isActive (g.players k).body j := by
  induction n with
  | zero => intro i tx ty g g' h; simp [update_body_loop] at h
  | succ n ih =>
    intro i tx ty g g' h
    by_cases h1 : (i : Int) < (g.players k).length
    · by_cases h2 : i < 45
      · cases hb : (g.players k).body[i]? with
        | none => rw [update_body_loop, if_pos h1, if_pos h2, hb] at h; exact absurd h (by simp)
        | some b =>
          rw [update_body_loop_step E n k i tx ty g b h1 h2 hb] at h
          have hset : ((g.setPlayer k { g.players k with
              body := (g.players k).body.set i { b with x := tx, y := ty } }).players k).body =
              (g.players k).body.set i { b with x := tx, y := ty } := by
            rw [players_setPlayer_same]
          split_ifs at h
          · obtain ⟨a1, a2⟩ := ih _ _ _ _ _ h
            rw [hset] at a1 a2
            refine ⟨by rw [a1, List.length_set], fun j => ?_⟩
            rw [a2 j, isActive_set _ i j b tx ty hb]
          · rw [← Option.some.inj h, (cputcxy_onlyVram E tx ty 0 _).players_eq, hset]
            exact ⟨List.length_set _ _ _, fun j => isActive_set _ i j b tx ty hb⟩
      · rw [update_body_loop, if_pos h1, if_neg h2] at h
        exact absurd h (by simp)
    · rw [update_body_loop_exit E n k i tx ty g h1] at h
      rw [← Option.some.inj h]
      exact ⟨rfl, fun _ => rfl⟩

theorem isActive_some (body : List BodyPart) (j : Nat) (b : BodyPart)
    (hb : body[j]? = some b) : isActive body j = b.active := by
  unfold isActive
  rw [hb]

/-- C15: for a player with its 45 segments and `1 <= length <= 45`, let `K` be
the first index below `length` whose segment is inactive (`K = length - 1` if
there is none).  Then `update_body` returns, and afterwards segment 0 holds the
head position, every segment `j` with `1 <= j <= K` holds the position segment
`j - 1` held before the call, every segment with index above `K` is unchanged,
and no segment's `active` flag, the head position or `length` is changed. -/
theorem update_body_shift (E : Env) (k : Nat) (g : Game) (K : Nat)
    (hlen : (g.players k).body.length = 45)
    (hl : 1 ≤ (g.players k).length ∧ (g.players k).length ≤ 45)
    (hK : (K : Int) < (g.players k).length)
    (hact : ∀ j, j < K → isActive (g.players k).body j = true)
    (hstop : isActive (g.players k).body K = false ∨ (K : Int) + 1 = (g.players k).length) :
    ∃ g', update_body E k g = some g' ∧
      (∀ b : BodyPart, (g.players k).body[0]? = some b →
        (g'.players k).body[0]? = some { b with x := (g.players k).x, y := (g.players k).y }) ∧
      (∀ (j : Nat) (b c : BodyPart), 1 ≤ j → j ≤ K → (g.players k).body[j]? = some b →
        (g.players k).body[j - 1]? = some c →
        (g'.players k).body[j]? = some { b with x := c.x, y := c.y }) ∧
      (∀ j : Nat, K < j → (g'.players k).body[j]? = (g.players k).body[j]?) ∧
      (∀ j : Nat, isActive (g'.players k).body j = isActive (g.players k).body j) ∧
      (g'.players k).x = (g.players k).x ∧ (g'.players k).y = (g.players k).y ∧
      (g'.players k).length = (g.players k).length := by
  have hK45 : K < 45 := by omega
  obtain ⟨bK, hbK⟩ : ∃ b, (g.players k).body[K]? = some b :=
    ⟨_, List.getElem?_eq_getElem (by omega)⟩
  obtain ⟨g', hrun, _, r2, r3, r4, _⟩ :=
    update_body_loop_shift E k K 46 0 (g.players k).x (g.players k).y g K bK
      (shifted_into (g.players k) K).1 (shifted_into (g.players k) K).2
      (by omega) (by omega) hlen hK45 hK hbK
      (fun j b _ h2 hb => by rw [← isActive_some _ j b hb]; exact hact j h2)
      (by rw [← isActive_some _ K bK hbK]; exact hstop)
      (by
        cases K with
        | zero => exact Or.inl ⟨rfl, rfl, rfl⟩
        | succ j =>
          right
          obtain ⟨c, hc⟩ : ∃ c, (g.players k).body[j]? = some c :=
            ⟨_, List.getElem?_eq_getElem (by omega)⟩
          refine ⟨by omega, c, hc, ?_, ?_⟩
          · show c.x = (match (g.players k).body[j]? with
              | some c => (c.x, c.y)
              | none => (0, 0)).1
            rw [hc]
          · show c.y = (match (g.players k).body[j]? with
              | some c => (c.x, c.y)
              | none => (0, 0)).2
            rw [hc])
  have hk := update_body_loop_kept E 46 k _ _ _ _ _ hrun
  have ho := update_body_loop_others E 46 k _ _ _ _ _ hrun
  have hf := update_body_loop_flags E 46 k _ _ _ _ _ hrun
  exact ⟨g', hrun, r2, fun j b c h1 h2 => r3 j b c (by omega) h2,
    fun j hj => r4 j (Or.inr hj), hf.2, ho.2.1, ho.2.2, (hk.kplayers k).length⟩

/-- C15 at a concrete input: player 1 of `chase` has length 4 and its first
inactive segment at index 3; after `update_body` segment 0 holds the head
position `(5,5)` and segment 3 holds the old position `(5,4)` of segment 2. -/
theorem update_body_shift_witness :
    ∃ g', update_body (nes []) 0 chase = some g' ∧
      (g'.players 0).body[0]? = some { x := 5, y := 5, active := true } ∧
      (g'.players 0).body[3]? = some { x := 5, y := 4, active := false } := by
  obtain ⟨g', h, r1, r2, _⟩ := update_body_shift (nes []) 0 chase 3 (by decide) (by decide)
    (by decide) (by decide) (Or.inl (by decide))
  exact ⟨g', h, r1 { x := 6, y := 5, active := true } (by decide),
    r2 3 { x := 0, y := 0, active := false } { x := 5, y := 4, active := true }
      (by decide) (by decide) (by decide) (by decide)⟩

/-- C14 (amended): for a player with its 45 segments, `length <= 45` and an
inactive segment below `length`, let `K` be the first such index.  Then
`update_body` returns, the segments above `K` are unchanged (the shift stops at
`K`), and exactly one cell of the screen is cleared: the cell of the position
shifted into segment `K`, which is the old position of segment `K - 1` (the head
position when `K = 0`), not the old position of segment `K` itself. -/
theorem update_body_erase (E : Env) (k : Nat) (g : Game) (K : Nat)
    (hlen : (g.players k).body.length = 45)
    (hl : (g.players k).length ≤ 45)
    (hK : (K : Int) < (g.players k).length)
    (hact : ∀ j, j < K → isActive (g.players k).body j = true)
    (hstop : isActive (g.players k).body K = false) :
    ∃ g', update_body E k g = some g' ∧
      (∀ j : Nat, K < j → (g'.players k).body[j]? = (g.players k).body[j]?) ∧
      (∀ a, g'.vram a =
        if a = E.NTADR_A (shifted_into (g.players k) K).1 (shifted_into (g.players k) K).2
        then 0 else g.vram a) := by
  have hK45 : K < 45 := by omega
  obtain ⟨bK, hbK⟩ : ∃ b, (g.players k).body[K]? = some b :=
    ⟨_, List.getElem?_eq_getElem (by omega)⟩
  have hbKa : bK.active = false := by rw [← isActive_some _ K bK hbK]; exact hstop
  obtain ⟨g', hrun, _, _, _, r4, r5⟩ :=
    update_body_loop_shift E k K 46 0 (g.players k).x (g.players k).y g K bK
      (shifted_into (g.players k) K).1 (shifted_into (g.players k) K).2
      (by omega) (by omega) hlen hK45 hK hbK
      (fun j b _ h2 hb => by rw [← isActive_some _ j b hb]; exact hact j h2)
      (Or.inl hbKa)
      (by
        cases K with
        | zero => exact Or.inl ⟨rfl, rfl, rfl⟩
        | succ j =>
          right
          obtain ⟨c, hc⟩ : ∃ c, (g.players k).body[j]? = some c :=
            ⟨_, List.getElem?_eq_getElem (by omega)⟩
          refine ⟨by omega, c, hc, ?_, ?_⟩
          · show c.x = (match (g.players k).body[j]? with
              | some c => (c.x, c.y)
              | none => (0, 0)).1
            rw [hc]
          · show c.y = (match (g.players k).body[j]? with
              | some c => (c.x, c.y)
              | none => (0, 0)).2
            rw [hc])
  refine ⟨g', hrun, fun j hj => r4 j (Or.inr hj), fun a => ?_⟩
  rw [r5 a]
  by_cases ha : a = E.NTADR_A (shifted_into (g.players k) K).1 (shifted_into (g.players k) K).2
  · rw [if_pos ⟨hbKa, ha⟩, if_pos ha]
  · rw [if_neg (fun h => ha h.2), if_neg ha]

/-- C14 (amended) at a concrete input: for player 1 of `stale_tail` the first
inactive segment is `body[3]`, and `update_body` clears the cell `(5,4)`, the
old position of `body[2]`. -/
theorem update_body_erase_witness :
    ∃ g', update_body (nes []) 0 stale_tail = some g' ∧
      (∀ a, g'.vram a = if a = NTADR_A 5 4 then 0 else stale_tail.vram a) := by
  obtain ⟨g', h, _, r⟩ := update_body_erase (nes []) 0 stale_tail 3 (by decide) (by decide)
    (by decide) (by decide) (by decide)
  exact ⟨g', h, r⟩

/-- C14 as stated fails: in `stale_tail` the first inactive segment of player 1
is `body[3]`, which holds the position `(1,3)` before the shift.  `update_body`
does not clear that cell (it still holds the border character `0xa0`); it
clears `(5,4)`, which held the trail character `0xae`. -/
theorem update_body_erase_not_old_cell :
    stale_tail.p0.length = 4 ∧
    (isActive stale_tail.p0.body 0 = true ∧ isActive stale_tail.p0.body 1 = true ∧
      isActive stale_tail.p0.body 2 = true) ∧
    stale_tail.p0.body[3]? = some { x := 1, y := 3, active := false } ∧
    (stale_tail.vram (NTADR_A 1 3), stale_tail.vram (NTADR_A 5 4)) = (0xa0, 0xae) ∧
    (update_body (nes []) 0 stale_tail).map
      (fun g => (g.vram (NTADR_A 1 3), g.vram (NTADR_A 5 4))) = some (0xa0, 0) := by
  refine ⟨by decide, ⟨by decide, by decide, by decide⟩, by decide, by decide!, by decide!⟩

/-! ## The computer player (C16, C17, C18) -/

theorem ai_try_dir_spec (E : Env) (k : Nat) (dir : Int) (g : Game) :
    (Unobstructed E g k (dir % 4).toNat →
      ai_try_dir E k dir 0 g =
        (true, g.setPlayer k { g.players k with dir := (dir % 4).toNat })) ∧
    (¬ Unobstructed E g k (dir % 4).toNat → ai_try_dir E k dir 0 g = (false, g)) := by
  unfold Unobstructed ahead ai_try_dir
  simp only []
  constructor
  · intro h
    rcases h with h | h
    · rw [if_pos h]
    · split_ifs <;> rfl
  · intro h
    rw [if_neg (fun c => h (Or.inl c)), if_neg (fun c => h (Or.inr c))]

theorem unobstructed_setPlayer_dir (E : Env) (g : Game) (k d d' : Nat) :
    Unobstructed E (g.setPlayer k { g.players k with dir := d' }) k d ↔ Unobstructed E g k d := by
  unfold Unobstructed ahead getchar
  rw [players_setPlayer_same, setPlayer_vram]
  have : (g.setPlayer k { g.players k with dir := d' }).pow = g.pow := by cases k <;> rfl
  rw [this]

theorem ai_candidate_state (E : Env) (k : Nat) (g : Game) :
    (ai_candidate E k g).2 = g ∨
    (ai_candidate E k g).2 = { g with rand_calls := g.rand_calls + 1 } := by
  unfold ai_candidate rand8
  simp only []
  split_ifs <;> simp

theorem ai_candidate_lt (E : Env) (k : Nat) (g : Game) : (ai_candidate E k g).1 < 4 := by
  unfold ai_candidate D_DOWN D_UP D_LEFT D_RIGHT
  simp only []
  split_ifs <;> simp

theorem unobstructed_candidate_state (E : Env) (k : Nat) (g : Game) (d : Nat) :
    Unobstructed E (ai_candidate E k g).2 k d ↔ Unobstructed E g k d := by
  rcases ai_candidate_state E k g with h | h <;> rw [h]
  have hp : ({ g with rand_calls := g.rand_calls + 1 } : Game).players k = g.players k := by
    cases k <;> rfl
  unfold Unobstructed ahead getchar
  rw [hp]

theorem candidate_players (E : Env) (k : Nat) (g : Game) :
    (ai_candidate E k g).2.players k = g.players k := by
  rcases ai_candidate_state E k g with h | h <;> rw [h]
  cases k <;> rfl

theorem dir_minus_one (c : Nat) (h : c < 4) : (((c : Int) - 1) % 4).toNat = (c + 3) % 4 := by
  interval_cases c <;> rfl

theorem dir_plus_one (c : Nat) (h : c < 4) : (((c : Int) + 1) % 4).toNat = (c + 1) % 4 := by
  interval_cases c <;> rfl

theorem dir_self (c : Nat) (h : c < 4) : (((c : Int)) % 4).toNat = c := by
  interval_cases c <;> rfl

/-- C16 (amended): for a player that is not human and whose primary candidate
direction `c` is obstructed, `ai_control` tries `(c+1) mod 4` and then
`(c-1) mod 4`, both in every case, and the later successful try wins: the
player is left with `(c-1) mod 4` if that cell is unobstructed, otherwise with
`(c+1) mod 4` if that cell is unobstructed, and with its old direction if both
are obstructed. -/
theorem ai_control_fallback (E : Env) (k : Nat) (g : Game)
    (hh : (g.players k).human = false)
    (hc : ¬ Unobstructed E g k (ai_candidate E k g).1) :
    ((ai_control E k g).players k).dir =
      if Unobstructed E g k (((ai_candidate E k g).1 + 3) % 4) then
        ((ai_candidate E k g).1 + 3) % 4
      else if Unobstructed E g k (((ai_candidate E k g).1 + 1) % 4) then
        ((ai_candidate E k g).1 + 1) % 4
      else (g.players k).dir := by
  have hlt := ai_candidate_lt E k g
  have hc1 : ¬ Unobstructed E (ai_candidate E k g).2 k
      (((ai_candidate E k g).1 : Int) % 4).toNat := by
    rw [dir_self _ hlt, unobstructed_candidate_state]; exact hc
  have h1 := (ai_try_dir_spec E k ((ai_candidate E k g).1 : Int) (ai_candidate E k g).2).2 hc1
  unfold ai_control
  rw [if_neg (by rw [hh]; decide)]
  simp only [h1, if_true]
  generalize hg1 : (ai_candidate E k g).2 = g1
  have hp1 : g1.players k = g.players k := by rw [← hg1]; exact candidate_players E k g
  have hu : ∀ d, Unobstructed E g1 k d ↔ Unobstructed E g k d := by
    intro d; rw [← hg1]; exact unobstructed_candidate_state E k g d
  have hplus := ai_try_dir_spec E k (((ai_candidate E k g).1 : Int) + 1) g1
  rw [dir_plus_one _ hlt] at hplus
  by_cases hp : Unobstructed E g k (((ai_candidate E k g).1 + 1) % 4)
  · rw [hplus.1 ((hu _).mpr hp)]
    have hminus := ai_try_dir_spec E k (((ai_candidate E k g).1 : Int) - 1)
      (g1.setPlayer k { g1.players k with dir := ((ai_candidate E k g).1 + 1) % 4 })
    rw [dir_minus_one _ hlt, unobstructed_setPlayer_dir] at hminus
    by_cases hm : Unobstructed E g k (((ai_candidate E k g).1 + 3) % 4)
    · rw [hminus.1 ((hu _).mpr hm), if_pos hm, players_setPlayer_same]
    · rw [hminus.2 (fun c => hm ((hu _).mp c)), if_neg hm, if_pos hp, players_setPlayer_same]
  · rw [hplus.2 (fun c => hp ((hu _).mp c))]
    have hminus := ai_try_dir_spec E k (((ai_candidate E k g).1 : Int) - 1) g1
    rw [dir_minus_one _ hlt] at hminus
    by_cases hm : Unobstructed E g k (((ai_candidate E k g).1 + 3) % 4)
    · rw [hminus.1 ((hu _).mpr hm), if_pos hm, players_setPlayer_same]
    · rw [hminus.2 (fun c => hm ((hu _).mp c)), if_neg hm, if_neg hp, hp1]

/-- C16 (witness): the fallback rule at the state `blocked`, where the
candidate RIGHT is obstructed. -/
theorem ai_control_fallback_witness :
    (blocked.players 0).human = false ∧
    ¬ Unobstructed (nes []) blocked 0 (ai_candidate (nes []) 0 blocked).1 ∧
    ((ai_control (nes []) 0 blocked).players 0).dir =
      if Unobstructed (nes []) blocked 0 (((ai_candidate (nes []) 0 blocked).1 + 3) % 4) then
        ((ai_candidate (nes []) 0 blocked).1 + 3) % 4
      else if Unobstructed (nes []) blocked 0 (((ai_candidate (nes []) 0 blocked).1 + 1) % 4) then
        ((ai_candidate (nes []) 0 blocked).1 + 1) % 4
      else (blocked.players 0).dir :=
  ⟨by decide!, by decide!, ai_control_fallback (nes []) 0 blocked (by decide!) (by decide!)⟩

/-- C16 (counterexample): at `blocked` the candidate of the computer player 1 is
RIGHT (0) and obstructed, the cells for `(c+1) mod 4 = 1` (DOWN) and for
`(c-1) mod 4 = 3` (UP) are both unobstructed, and `ai_control` leaves the
player facing UP: the second of the two tries, not the first. -/
theorem ai_control_last_try_wins :
    (blocked.players 0).human = false ∧
    (ai_candidate (nes []) 0 blocked).1 = 0 ∧
    ¬ Unobstructed (nes []) blocked 0 0 ∧
    Unobstructed (nes []) blocked 0 1 ∧
    Unobstructed (nes []) blocked 0 3 ∧
    ((ai_control (nes []) 0 blocked).players 0).dir = 3 := by
  decide!

/-- C17 (amended): `ai_try_dir` first compares the byte at the target cell with
the pickup marker and only then tests the grid bounds. For a target cell off
the grid (`x ≥ COLS` or `y ≥ ROWS`) it returns false and leaves the state
unchanged when the byte there differs from the pickup marker, and it returns
true and sets the direction when the byte there equals the pickup marker. -/
theorem ai_try_dir_out_of_grid (E : Env) (k : Nat) (dir : Int) (shift : Nat) (g : Game)
    (hout : ¬ ((ahead (g.players k) (dir % 4).toNat shift).1 < COLS ∧
      (ahead (g.players k) (dir % 4).toNat shift).2 < ROWS)) :
    (getchar E g (ahead (g.players k) (dir % 4).toNat shift).1
        (ahead (g.players k) (dir % 4).toNat shift).2 ≠ g.pow.attr →
      ai_try_dir E k dir shift g = (false, g)) ∧
    (getchar E g (ahead (g.players k) (dir % 4).toNat shift).1
        (ahead (g.players k) (dir % 4).toNat shift).2 = g.pow.attr →
      ai_try_dir E k dir shift g =
        (true, g.setPlayer k { g.players k with dir := (dir % 4).toNat })) := by
  unfold ahead at hout ⊢
  unfold ai_try_dir
  simp only [] at hout ⊢
  constructor
  · intro hp
    rw [if_neg hp, if_neg (fun c => hout ⟨c.1, c.2.1⟩)]
  · intro hp
    rw [if_pos hp]

/-- C17 (witness): the rule at the state `off_grid`, direction DOWN. -/
theorem ai_try_dir_out_of_grid_witness :
    ¬ ((ahead (off_grid.players 0) ((1 : Int) % 4).toNat 0).1 < COLS ∧
      (ahead (off_grid.players 0) ((1 : Int) % 4).toNat 0).2 < ROWS) ∧
    ((getchar (nes []) off_grid (ahead (off_grid.players 0) ((1 : Int) % 4).toNat 0).1
        (ahead (off_grid.players 0) ((1 : Int) % 4).toNat 0).2 ≠ off_grid.pow.attr →
      ai_try_dir (nes []) 0 1 0 off_grid = (false, off_grid)) ∧
    (getchar (nes []) off_grid (ahead (off_grid.players 0) ((1 : Int) % 4).toNat 0).1
        (ahead (off_grid.players 0) ((1 : Int) % 4).toNat 0).2 = off_grid.pow.attr →
      ai_try_dir (nes []) 0 1 0 off_grid =
        (true, off_grid.setPlayer 0
          { off_grid.players 0 with dir := ((1 : Int) % 4).toNat }))) :=
  ⟨by decide!, ai_try_dir_out_of_grid (nes []) 0 1 0 off_grid (by decide!)⟩

/-- C17 (counterexample): at `off_grid` player 1 stands at `(5,26)` facing
RIGHT; the cell below, `(5,27)`, is off the grid (`27 ≥ ROWS`) and holds the
byte of the pickup marker. `ai_try_dir` with direction DOWN and shift 0 returns
true and turns the player DOWN. -/
theorem ai_try_dir_off_grid_pickup :
    ahead (off_grid.players 0) 1 0 = (5, 27) ∧ ¬ (27 < ROWS) ∧
    getchar (nes []) off_grid 5 27 = off_grid.pow.attr ∧
    (off_grid.players 0).dir = 0 ∧
    (ai_try_dir (nes []) 0 1 0 off_grid).1 = true ∧
    (((ai_try_dir (nes []) 0 1 0 off_grid).2).players 0).dir = 1 := by
  decide!

/-- C18: for a player and a pickup with byte coordinates at different cells,
the primary candidate direction of `ai_control` is one of the four directions,
and one step in it from the player's position lowers the Manhattan distance to
the pickup by exactly one. -/
theorem ai_candidate_approaches (E : Env) (k : Nat) (g : Game)
    (hx : (g.players k).x < 256) (hy : (g.players k).y < 256)
    (hpx : g.pow.x < 256) (hpy : g.pow.y < 256)
    (hne : ¬ ((g.players k).x = g.pow.x ∧ (g.players k).y = g.pow.y)) :
    (ai_candidate E k g).1 < 4 ∧
    manhattan (ahead (g.players k) (ai_candidate E k g).1 0).1
        (ahead (g.players k) (ai_candidate E k g).1 0).2 g.pow.x g.pow.y + 1 =
      manhattan (g.players k).x (g.players k).y g.pow.x g.pow.y := by
  refine ⟨ai_candidate_lt E k g, ?_⟩
  unfold ai_candidate manhattan ahead D_DOWN D_UP D_LEFT D_RIGHT DIR_X DIR_Y
  simp only []
  split_ifs <;> simp <;> omega

/-- C18 (witness): at `blocked` player 1 is at `(5,5)` and the pickup at
`(10,5)`. -/
theorem ai_candidate_approaches_witness :
    (ai_candidate (nes []) 0 blocked).1 < 4 ∧
    manhattan (ahead (blocked.players 0) (ai_candidate (nes []) 0 blocked).1 0).1
        (ahead (blocked.players 0) (ai_candidate (nes []) 0 blocked).1 0).2
        blocked.pow.x blocked.pow.y + 1 =
      manhattan (blocked.players 0).x (blocked.players 0).y blocked.pow.x blocked.pow.y :=
  ai_candidate_approaches (nes []) 0 blocked (by decide!) (by decide!) (by decide!) (by decide!)
    (by decide!)

/-! ## The declared winner (C19) -/

/-- C19 (what the code does): the winner check of `play_round` tests
`players[0].score >= MAX_SCORE` without comparing the two scores, so with
unequal scores and player 1 (index 0) at 7 or more it declares player 1 even
when player 2 has the higher score.  Such scores are reached: from 6 against 6
a round in which both players collide gives 7 against 7 and no winner, and a
next round in which only player 1 collides gives 7 against 8, where
`declare_winner(0)` is called. -/
theorem winner_check_declares_trailing :
    (∀ (E : Env) (g : Game), 7 ≤ g.p0.score → g.p0.score < g.p1.score →
      (winner_check E g).winner_calls = 0 :: g.winner_calls) ∧
    ((round_end (nes []) (ended true true 6 6)).p0.score,
      (round_end (nes []) (ended true true 6 6)).p1.score,
      (round_end (nes []) (ended true true 6 6)).winner_calls,
      (round_end (nes []) (ended true true 6 6)).gameover) = (7, 7, [], 0) ∧
    ((round_end (nes []) (ended true false 7 7)).p0.score,
      (round_end (nes []) (ended true false 7 7)).p1.score,
      (round_end (nes []) (ended true false 7 7)).winner_calls,
      (round_end (nes []) (ended true false 7 7)).gameover) = (7, 8, [0], 1) := by
  refine ⟨fun E g h0 hlt => ?_, by decide!, by decide!⟩
  unfold winner_check MAX_SCORE
  rw [if_pos (by omega), if_pos h0, declare_winner_calls]

/-! ## The active segments of a trail (C20) -/

theorem length_setActive (b : List BodyPart) : ∀ (i : Nat) (v : Bool),
    (setActive b i v).length = b.length := by
  induction b with
  | nil => intro i v; rfl
  | cons a bs ih =>
    intro i v
    cases i with
    | zero => rfl
    | succ i => simp [setActive, ih]

theorem isActive_setActive_ne (b : List BodyPart) : ∀ (i j : Nat) (v : Bool), j ≠ i →
    isActive (setActive b i v) j = isActive b j := by
  induction b with
  | nil => intro i j v _; rfl
  | cons a bs ih =>
    intro i j v h
    cases i with
    | zero =>
      cases j with
      | zero => exact absurd rfl h
      | succ j => simp [isActive, setActive]
    | succ i =>
      cases j with
      | zero => simp [isActive, setActive]
      | succ j =>
        have := ih i j v (by omega)
        unfold isActive at this ⊢
        simpa [setActive] using this

theorem isActive_setActive_self (b : List BodyPart) : ∀ (i : Nat) (v : Bool), i < b.length →
    isActive (setActive b i v) i = v := by
  induction b with
  | nil => intro i v h; simp at h
  | cons a bs ih =>
    intro i v h
    cases i with
    | zero => simp [isActive, setActive]
    | succ i =>
      have := ih i v (by simpa using h)
      unfold isActive at this ⊢
      simpa [setActive] using this

theorem isActive_of_length_le (b : List BodyPart) (j : Nat) (h : b.length ≤ j) :
    isActive b j = false := by
  unfold isActive
  rw [List.getElem?_eq_none h]

theorem isActive_setActive_false (b : List BodyPart) (i : Nat) :
    isActive (setActive b i false) i = false := by
  by_cases h : i < b.length
  · exact isActive_setActive_self b i false h
  · exact isActive_of_length_le _ _ (by rw [length_setActive]; omega)

theorem reset_loop_spec : ∀ (n i : Nat) (b0 b1 : List BodyPart) (L0 L1 : Int),
    45 ≤ n + i → 1 ≤ i → b0.length = 45 → b1.length = 45 →
    (∀ j, 1 ≤ j → j < i → isActive b0 j = false) →
    (∀ j, 1 ≤ j → j < i → isActive b1 j = false) →
    (∀ j, i ≤ j → (isActive b0 j = true ↔ (j : Int) + 2 ≤ L0)) →
    (∀ j, i ≤ j → (isActive b1 j = true ↔ (j : Int) + 2 ≤ L1)) →
    (reset_loop n i b0 b1).1.length = 45 ∧ (reset_loop n i b0 b1).2.length = 45 ∧
    (∀ j, 1 ≤ j → isActive (reset_loop n i b0 b1).1 j = false) ∧
    (∀ j, 1 ≤ j → isActive (reset_loop n i b0 b1).2 j = false) ∧
    isActive (reset_loop n i b0 b1).1 0 = isActive b0 0 ∧
    isActive (reset_loop n i b0 b1).2 0 = isActive b1 0 := by
  intro n
  induction n with
  | zero =>
    intro i b0 b1 L0 L1 hn hi h0 h1 l0 l1 u0 u1
    refine ⟨h0, h1, fun j hj => ?_, fun j hj => ?_, rfl, rfl⟩
    · show isActive b0 j = false
      by_cases hji : j < i
      · exact l0 j hj hji
      · exact isActive_of_length_le _ _ (by omega)
    · show isActive b1 j = false
      by_cases hji : j < i
      · exact l1 j hj hji
      · exact isActive_of_length_le _ _ (by omega)
  | succ n ih =>
    intro i b0 b1 L0 L1 hn hi h0 h1 l0 l1 u0 u1
    unfold reset_loop
    by_cases hc : i < 45 ∧ (isActive b0 i || isActive b1 i) = true
    · rw [if_pos hc]
      have r := ih (i + 1) (setActive b0 i false) (setActive b1 i false) L0 L1 (by omega)
        (by omega) (by rw [length_setActive]; exact h0) (by rw [length_setActive]; exact h1)
        (fun j hj hji => by
          by_cases e : j = i
          · rw [e]; exact isActive_setActive_false b0 i
          · rw [isActive_setActive_ne b0 i j false e]; exact l0 j hj (by omega))
        (fun j hj hji => by
          by_cases e : j = i
          · rw [e]; exact isActive_setActive_false b1 i
          · rw [isActive_setActive_ne b1 i j false e]; exact l1 j hj (by omega))
        (fun j hj => by
          rw [isActive_setActive_ne b0 i j false (by omega)]; exact u0 j (by omega))
        (fun j hj => by
          rw [isActive_setActive_ne b1 i j false (by omega)]; exact u1 j (by omega))
      rw [isActive_setActive_ne b0 i 0 false (by omega),
        isActive_setActive_ne b1 i 0 false (by omega)] at r
      exact r
    · rw [if_neg hc]
      refine ⟨h0, h1, fun j hj => ?_, fun j hj => ?_, rfl, rfl⟩
      · show isActive b0 j = false
        by_cases hji : j < i
        · exact l0 j hj hji
        · by_cases h45 : i < 45
          · have hi0 : isActive b0 i = false := by
              cases e : isActive b0 i
              · rfl
              · exact absurd ⟨h45, by rw [e]; rfl⟩ hc
            have n0 : ¬ ((i : Int) + 2 ≤ L0) := fun c => by
              rw [(u0 i (le_refl i)).mpr c] at hi0; exact Bool.noConfusion hi0
            cases e : isActive b0 j
            · rfl
            · have := (u0 j (by omega)).mp e
              omega
          · exact isActive_of_length_le _ _ (by omega)
      · show isActive b1 j = false
        by_cases hji : j < i
        · exact l1 j hj hji
        · by_cases h45 : i < 45
          · have hi1 : isActive b1 i = false := by
              cases e : isActive b1 i
              · rfl
              · exact absurd ⟨h45, by rw [e]; simp⟩ hc
            have n1 : ¬ ((i : Int) + 2 ≤ L1) := fun c => by
              rw [(u1 i (le_refl i)).mpr c] at hi1; exact Bool.noConfusion hi1
            cases e : isActive b1 j
            · rfl
            · have := (u1 j (by omega)).mp e
              omega
          · exact isActive_of_length_le _ _ (by omega)

theorem reset_players_activePrefix (g : Game) (h0 : TailPrefix g.p0) (h1 : TailPrefix g.p1) :
    ActivePrefix (reset_players g).p0 ∧ ActivePrefix (reset_players g).p1 := by
  obtain ⟨a0, a1, a2, a3⟩ := h0
  obtain ⟨c0, c1, c2, c3⟩ := h1
  obtain ⟨r0, r1, r2, r3, r4, r5⟩ := reset_loop_spec 45 1 (setActive g.p0.body 0 true)
    (setActive g.p1.body 0 true) g.p0.length g.p1.length (by omega) (by omega)
    (by rw [length_setActive]; exact a0) (by rw [length_setActive]; exact c0)
    (fun j hj hji => by omega) (fun j hj hji => by omega)
    (fun j hj => by rw [isActive_setActive_ne _ 0 j true (by omega)]; exact a3 j hj)
    (fun j hj => by rw [isActive_setActive_ne _ 0 j true (by omega)]; exact c3 j hj)
  rw [isActive_setActive_self _ 0 true (by omega)] at r4 r5
  constructor
  · refine ⟨r0, show (2 : Int) ≤ 2 by decide, show (2 : Int) ≤ 45 by decide, fun i => ?_⟩
    show isActive (reset_loop 45 1 (setActive g.p0.body 0 true)
      (setActive g.p1.body 0 true)).1 i = true ↔ (i : Int) + 2 ≤ 2
    cases i with
    | zero => rw [r4]; simp
    | succ i => rw [r2 (i + 1) (by omega)]; simp
  · refine ⟨r1, show (2 : Int) ≤ 2 by decide, show (2 : Int) ≤ 45 by decide, fun i => ?_⟩
    show isActive (reset_loop 45 1 (setActive g.p0.body 0 true)
      (setActive g.p1.body 0 true)).2 i = true ↔ (i : Int) + 2 ≤ 2
    cases i with
    | zero => rw [r5]; simp
    | succ i => rw [r3 (i + 1) (by omega)]; simp

theorem eat_pickup_trail (E : Env) (fuel k : Nat) (g g' : Game)
    (h : eat_pickup E fuel k g = some g') :
    (g'.players k).body =
      setActive (g.players k).body ((g.players k).length - 1).toNat true := by
  unfold eat_pickup at h
  cases hr : rand_place E fuel g with
  | none => simp [hr] at h
  | some g1 =>
    simp only [hr] at h
    have hk := rand_place_placeKept E fuel g g1 hr
    have hd : ∀ j, (draw_powop E g1).players j = g.players j := fun j =>
      ((poke_onlyVram g1 _ _).players_eq j).trans (hk.pplayers j)
    generalize draw_powop E g1 = g2 at h hd
    split_ifs at h with hb hc
    · injection h with h
      subst h
      show ((g2.setPlayer k _).players k).body = _
      rw [players_setPlayer_same, hd]
    · injection h with h
      subst h
      rw [players_setPlayer_same, hd]

theorem check_head_trail (E : Env) (fuel k : Nat) (g g' : Game)
    (h : check_head E fuel k g = some g') :
    (((g'.players k).body = (g.players k).body ∧
        (g'.players k).length = (g.players k).length) ∨
      ((g'.players k).body =
          setActive (g.players k).body ((g.players k).length - 1).toNat true ∧
        (g'.players k).length = (g.players k).length + 1)) ∧
    (∀ j, ¬ SameSlot j k → g'.players j = g.players j) := by
  unfold check_head at h
  split_ifs at h with h0 hp
  · have hs := eat_pickup_spec E fuel k g g' h
    exact ⟨Or.inr ⟨eat_pickup_trail E fuel k g g' h, hs.1⟩, hs.2.2.2.1⟩
  · injection h with h
    subst h
    refine ⟨Or.inl ?_, fun j hj => players_setPlayer_other _ j k _ hj⟩
    rw [players_setPlayer_same]
    exact ⟨rfl, rfl⟩
  · injection h with h
    subst h
    exact ⟨Or.inl ⟨rfl, rfl⟩, fun _ _ => rfl⟩

theorem before_check_trail (E : Env) (k : Nat) (g g2 : Game)
    (h : before_check E k g = some g2) :
    (g2.players k).body.length = (g.players k).body.length ∧
    (∀ j, isActive (g2.players k).body j = isActive (g.players k).body j) ∧
    (g2.players k).length = (g.players k).length := by
  have hlen := ((before_check_kept E k g g2 h).kplayers k).length
  unfold before_check update_body at h
  cases hu : update_body_loop E 46 k 0 ((draw_player E k g).players k).x
      ((draw_player E k g).players k).y (draw_player E k g) with
  | none => simp [hu] at h
  | some g1 =>
    simp only [hu] at h
    have hf := update_body_loop_flags E 46 k 0 _ _ _ g1 hu
    rw [draw_player_players] at hf
    unfold step_head at h
    cases hx : DIR_X[(g1.players k).dir]? with
    | none => simp [hx] at h
    | some dx =>
      cases hy : DIR_Y[(g1.players k).dir]? with
      | none => simp [hx, hy] at h
      | some dy =>
        simp only [hx, hy] at h
        rw [← Option.some.inj h, players_setPlayer_same] at hlen
        rw [← Option.some.inj h, players_setPlayer_same]
        exact ⟨hf.1, hf.2, hlen⟩

theorem move_player_trail (E : Env) (fuel k : Nat) (g g' : Game)
    (h : move_player E fuel k g = some g') :
    (g'.players k).body.length = (g.players k).body.length ∧
    (((g'.players k).length = (g.players k).length ∧
        ∀ j, isActive (g'.players k).body j = isActive (g.players k).body j) ∨
      ((g'.players k).length = (g.players k).length + 1 ∧
        ∀ j, isActive (g'.players k).body j =
          if j = ((g.players k).length - 1).toNat ∧ j < (g.players k).body.length then true
          else isActive (g.players k).body j)) ∧
    (∀ j, ¬ SameSlot j k → g'.players j = g.players j) := by
  obtain ⟨g2, g3, hb, hc, hd⟩ := move_player_some E fuel k g g' h
  obtain ⟨b1, b2, b3⟩ := before_check_trail E k g g2 hb
  obtain ⟨c1, c2⟩ := check_head_trail E fuel k g2 g3 hc
  have hp : ∀ j, g'.players j = g3.players j := fun j => by
    rw [hd]; exact draw_player_players E k g3 j
  refine ⟨?_, ?_, fun j hj => ?_⟩
  · rw [hp]
    rcases c1 with c | c
    · rw [c.1, b1]
    · rw [c.1, length_setActive, b1]
  · rw [hp]
    rcases c1 with c | c
    · left
      rw [c.1, c.2]
      exact ⟨b3, b2⟩
    · right
      rw [c.1, c.2, b3]
      refine ⟨rfl, fun j => ?_⟩
      by_cases e : j = ((g.players k).length - 1).toNat
      · by_cases e2 : j < (g.players k).body.length
        · rw [if_pos ⟨e, e2⟩, ← e, isActive_setActive_self _ j true (by rw [b1]; exact e2)]
        · rw [if_neg (fun c => e2 c.2), ← e,
            isActive_of_length_le _ j (by rw [length_setActive, b1]; omega),
            isActive_of_length_le _ j (by omega)]
      · rw [if_neg (fun c => e c.1), isActive_setActive_ne _ _ j true e, b2]
  · rw [hp, c2 j hj, before_check_others E k g g2 hb j hj]

theorem tailPrefix_step (p q : Player) (hp : TailPrefix p)
    (hlen : q.body.length = p.body.length) (hle : q.length ≤ 45)
    (h : (q.length = p.length ∧ ∀ j, isActive q.body j = isActive p.body j) ∨
      (q.length = p.length + 1 ∧
        ∀ j, isActive q.body j =
          if j = (p.length - 1).toNat ∧ j < p.body.length then true else isActive p.body j)) :
    TailPrefix q ∧ isActive q.body 0 = isActive p.body 0 := by
  obtain ⟨a0, a1, a2, a3⟩ := hp
  rcases h with ⟨h1, h2⟩ | ⟨h1, h2⟩
  · refine ⟨⟨by rw [hlen]; exact a0, by omega, hle, fun i hi => ?_⟩, h2 0⟩
    rw [h2 i, h1]
    exact a3 i hi
  · refine ⟨⟨by rw [hlen]; exact a0, by omega, hle, fun i hi => ?_⟩, ?_⟩
    · rw [h2 i, h1]
      by_cases e : i = (p.length - 1).toNat ∧ i < p.body.length
      · rw [if_pos e]
        have := e.1
        simp only [true_iff]
        omega
      · rw [if_neg e, a3 i hi]
        constructor
        · intro c; omega
        · intro c
          have : ¬ i = (p.length - 1).toNat := fun c2 => e ⟨c2, by omega⟩
          omega
    · rw [h2 0, if_neg (by omega)]

theorem activePrefix_iff (p : Player) :
    ActivePrefix p ↔ (TailPrefix p ∧ isActive p.body 0 = true) := by
  constructor
  · rintro ⟨a0, a1, a2, a3⟩
    exact ⟨⟨a0, a1, a2, fun i _ => a3 i⟩, (a3 0).mpr (by omega)⟩
  · rintro ⟨⟨a0, a1, a2, a3⟩, h⟩
    refine ⟨a0, a1, a2, fun i => ?_⟩
    cases i with
    | zero => rw [h]; simp; omega
    | succ i => exact a3 (i + 1) (by omega)

theorem isActive_replicate (n i : Nat) :
    isActive (List.replicate n { x := 0, y := 0, active := false }) i = false := by
  unfold isActive
  by_cases h : i < n
  · rw [List.getElem?_eq_getElem (by simpa using h)]
    simp
  · rw [List.getElem?_eq_none (by simpa using h)]

theorem reached_tailPrefix (E : Env) (b : Bool) (g : Game) (h : Reached E b g) :
    TailPrefix g.p0 ∧ TailPrefix g.p1 ∧
    (b = true → isActive g.p0.body 0 = true ∧ isActive g.p1.body 0 = true) := by
  induction h with
  | init g0 =>
    have hz : TailPrefix { zero_player with length := 2 } ∧
        ∀ (a c : Nat), TailPrefix { zero_player with head_attr := a, tail_attr := c, length := 2 } := by
      have key : ∀ q : Player, q.body = zero_player.body → q.length = 2 → TailPrefix q := by
        intro q hb hl
        refine ⟨by rw [hb]; rfl, by omega, by omega, fun i hi => ?_⟩
        rw [hb, hl]
        show isActive (List.replicate 45 _) i = true ↔ _
        rw [isActive_replicate]
        constructor
        · intro c; exact Bool.noConfusion c
        · intro c; omega
      exact ⟨key _ rfl rfl, fun a c => key _ rfl rfl⟩
    exact ⟨hz.2 _ _, hz.2 _ _, fun c => Bool.noConfusion c⟩
  | reset b g _ ih =>
    obtain ⟨r0, r1⟩ := reset_players_activePrefix g ih.1 ih.2.1
    exact ⟨((activePrefix_iff _).mp r0).1, ((activePrefix_iff _).mp r1).1,
      fun _ => ⟨((activePrefix_iff _).mp r0).2, ((activePrefix_iff _).mp r1).2⟩⟩
  | move b fuel k g g' _ hk hm h0 h1 ih =>
    obtain ⟨m1, m2, m3⟩ := move_player_trail E fuel k g g' hm
    have hk2 : k = 0 ∨ k = 1 := by omega
    rcases hk2 with rfl | rfl
    · have s := tailPrefix_step g.p0 g'.p0 ih.1 m1 h0 m2
      have o : g'.p1 = g.p1 := m3 1 not_sameSlot_one_zero
      rw [o]
      exact ⟨s.1, ih.2.1, fun c => by rw [s.2]; exact ih.2.2 c⟩
    · have s := tailPrefix_step g.p1 g'.p1 ih.2.1 m1 h1 m2
      have o : g'.p0 = g.p0 := m3 0 not_sameSlot_zero_one
      rw [o]
      exact ⟨ih.1, s.1, fun c => by rw [s.2]; exact ih.2.2 c⟩
  | frame b g g' _ hs ih =>
    obtain ⟨s0, s1, s2, s3⟩ := hs
    unfold TailPrefix at ih ⊢
    rw [s0, s1, s2, s3]
    exact ih

theorem update_body_one_cell (E : Env) (k : Nat) (g : Game)
    (hp : ActivePrefix (g.players k)) :
    isActive (g.players k).body ((g.players k).length - 1).toNat = false ∧
    ∃ g', update_body E k g = some g' ∧
      ∀ a, g'.vram a =
        if a = E.NTADR_A (shifted_into (g.players k) ((g.players k).length - 1).toNat).1
            (shifted_into (g.players k) ((g.players k).length - 1).toNat).2
        then 0 else g.vram a := by
  obtain ⟨hlen, a1, a2, a3⟩ := hp
  generalize hKd : ((g.players k).length - 1).toNat = K
  have hK : (K : Int) + 1 = (g.players k).length := by omega
  have hK45 : K < 45 := by omega
  have hstop : isActive (g.players k).body K = false := by
    cases e : isActive (g.players k).body K
    · rfl
    · have := (a3 K).mp e
      omega
  refine ⟨hstop, ?_⟩
  obtain ⟨bK, hbK⟩ : ∃ b, (g.players k).body[K]? = some b :=
    ⟨_, List.getElem?_eq_getElem (by omega)⟩
  have hbKa : bK.active = false := by rw [← isActive_some _ K bK hbK]; exact hstop
  obtain ⟨g', hrun, _, _, _, _, r5⟩ :=
    update_body_loop_shift E k K 46 0 (g.players k).x (g.players k).y g K bK
      (shifted_into (g.players k) K).1 (shifted_into (g.players k) K).2
      (by omega) (by omega) hlen hK45 (by omega) hbK
      (fun j b _ h2 hb => by
        rw [← isActive_some _ j b hb]; exact (a3 j).mpr (by omega))
      (Or.inl hbKa)
      (by
        cases K with
        | zero => exact Or.inl ⟨rfl, rfl, rfl⟩
        | succ j =>
          right
          obtain ⟨c, hc⟩ : ∃ c, (g.players k).body[j]? = some c :=
            ⟨_, List.getElem?_eq_getElem (by omega)⟩
          refine ⟨by omega, c, hc, ?_, ?_⟩
          · show c.x = (match (g.players k).body[j]? with
              | some c => (c.x, c.y)
              | none => (0, 0)).1
            rw [hc]
          · show c.y = (match (g.players k).body[j]? with
              | some c => (c.x, c.y)
              | none => (0, 0)).2
            rw [hc])
  refine ⟨g', hrun, fun a => ?_⟩
  rw [r5 a]
  by_cases ha : a = E.NTADR_A (shifted_into (g.players k) K).1 (shifted_into (g.players k) K).2
  · rw [if_pos ⟨hbKa, ha⟩, if_pos ha]
  · rw [if_neg (fun h => ha h.2), if_neg ha]

/-- C20 (amended): in every state reached from `init_game` by calls of
`reset_players` and of `move_player` that keep both lengths at 45 or less (and
by steps in between that leave the segments and lengths alone), once
`reset_players` has been called each player's active segments are exactly those
at the indices `0 .. length-2`; segment `length-1` is then inactive and
`update_body` returns and clears exactly one cell, the one of the position
shifted into that segment.  In every such state, also before the first call of
`reset_players`, the clearing loop of `reset_players` leaves segment 0 of both
players active and no segment from index 1 on active. -/
theorem active_prefix_after_reset (E : Env) (b : Bool) (g : Game) (h : Reached E b g) :
    (b = true →
      ActivePrefix g.p0 ∧ ActivePrefix g.p1 ∧
      ∀ k, k < 2 →
        isActive (g.players k).body ((g.players k).length - 1).toNat = false ∧
        ∃ g', update_body E k g = some g' ∧
          ∀ a, g'.vram a =
            if a = E.NTADR_A (shifted_into (g.players k) ((g.players k).length - 1).toNat).1
                (shifted_into (g.players k) ((g.players k).length - 1).toNat).2
            then 0 else g.vram a) ∧
    (isActive (reset_players g).p0.body 0 = true ∧
      isActive (reset_players g).p1.body 0 = true ∧
      ∀ i, 1 ≤ i → isActive (reset_players g).p0.body i = false ∧
        isActive (reset_players g).p1.body i = false) := by
  obtain ⟨t0, t1, t2⟩ := reached_tailPrefix E b g h
  constructor
  · intro hb
    have a0 : ActivePrefix g.p0 := (activePrefix_iff _).mpr ⟨t0, (t2 hb).1⟩
    have a1 : ActivePrefix g.p1 := (activePrefix_iff _).mpr ⟨t1, (t2 hb).2⟩
    refine ⟨a0, a1, fun k hk => ?_⟩
    have hk2 : k = 0 ∨ k = 1 := by omega
    rcases hk2 with rfl | rfl
    · exact update_body_one_cell E 0 g a0
    · exact update_body_one_cell E 1 g a1
  · obtain ⟨r0, r1⟩ := reset_players_activePrefix g t0 t1
    refine ⟨(r0.2.2.2 0).mpr (show ((0 : Nat) : Int) + 2 ≤ 2 by decide),
      (r1.2.2.2 0).mpr (show ((0 : Nat) : Int) + 2 ≤ 2 by decide), fun i hi => ?_⟩
    constructor
    · cases e : isActive (reset_players g).p0.body i
      · rfl
      · have := (r0.2.2.2 i).mp e
        have h2 : (reset_players g).p0.length = 2 := rfl
        omega
    · cases e : isActive (reset_players g).p1.body i
      · rfl
      · have := (r1.2.2.2 i).mp e
        have h2 : (reset_players g).p1.length = 2 := rfl
        omega

/-- C20 (amended) at a concrete input: `first_bite` is reached by
`init_game`, the drawing of the playfield, `reset_players`, the drawing of the
pickup and one `move_player` of player 1, which eats the pickup; both players
have the active-prefix property there, player 1 with length 3. -/
theorem active_prefix_after_reset_witness :
    Reached (nes [0, 4, 2]) true first_bite ∧ first_bite.p0.length = 3 ∧
    ActivePrefix first_bite.p0 ∧ ActivePrefix first_bite.p1 := by
  have hm : move_player (nes [0, 4, 2]) 5 0 (field 5) = some first_bite := by
    have hs : (move_player (nes [0, 4, 2]) 5 0 (field 5)).isSome = true := by decide!
    obtain ⟨g', hg'⟩ := Option.isSome_iff_exists.mp hs
    unfold first_bite
    rw [hg']
    rfl
  have hr : Reached (nes [0, 4, 2]) true first_bite :=
    Reached.move true 5 0 (field 5) first_bite
      (Reached.frame true
        (reset_players (draw_playfield (nes [])
          (clrscr (init_game { boot (fun _ => 0) with attract := 1 }))))
        (field 5)
        (Reached.reset false _
          (Reached.frame false (init_game { boot (fun _ => 0) with attract := 1 }) _
            (Reached.init _) ⟨rfl, rfl, rfl, rfl⟩))
        ⟨rfl, rfl, rfl, rfl⟩)
      (by decide) hm (by decide!) (by decide!)
  exact ⟨hr, by decide!, ((active_prefix_after_reset _ _ _ hr).1 rfl).1,
    ((active_prefix_after_reset _ _ _ hr).1 rfl).2.1⟩

/-- C20 as stated fails: the state `init_game` leaves is reached (by no call at
all), has length 2 for player 1 and no active segment, so segment 0 is not
active; the same holds after a `move_player` call made from that state. -/
theorem active_prefix_fails_at_init :
    Reached (nes []) false (init_game (boot (fun _ => 0))) ∧
    (init_game (boot (fun _ => 0))).p0.length = 2 ∧
    isActive (init_game (boot (fun _ => 0))).p0.body 0 = false ∧
    ¬ ActivePrefix (init_game (boot (fun _ => 0))).p0 ∧
    (∃ g', move_player (nes []) 1 0 (init_game (boot (fun _ => 0))) = some g' ∧
      Reached (nes []) false g' ∧ g'.p0.length = 2 ∧ isActive g'.p0.body 0 = false) := by
  refine ⟨Reached.init _, by decide, by decide, fun h => ?_, ?_⟩
  · have := (h.2.2.2 0).mpr (by decide)
    revert this
    decide
  · have hs : (move_player (nes []) 1 0 (init_game (boot (fun _ => 0)))).isSome = true := by
      decide!
    obtain ⟨g', hg'⟩ := Option.isSome_iff_exists.mp hs
    have h1 : (move_player (nes []) 1 0 (init_game (boot (fun _ => 0)))).map
        (fun g => (g.p0.length, g.p1.length, isActive g.p0.body 0)) = some (2, 2, false) := by
      decide!
    rw [hg'] at h1
    simp only [Option.map_some', Option.some.injEq, Prod.mk.injEq] at h1
    exact ⟨g', hg', Reached.move false 1 0 _ g' (Reached.init _) (by decide) hg'
      (by rw [h1.1]; decide) (by rw [h1.2.1]; decide), h1.1, h1.2.2⟩

/-! ## Collision detection from the screen before the move (C6) -/

end Snake
